import Mathlib

/-!
Verification development for the vex-client-sdk repository.

The TypeScript sources are embedded shallowly: JSON runtime values become the
inductive `JVal` (with a dedicated constructor for Node byte buffers), each
method becomes a Lean function translated statement by statement, and the
stateful timer bookkeeping becomes explicit state machines.  Asynchronous
send operations are parameterised by oracles describing the environment's
responses, and `Math.random()` draws are passed in as rational arguments.
-/

namespace Vex

/-- JSON-like runtime values of the TypeScript payloads.  `buf` stands for a
Node `Buffer` (the result of base64 decoding); JavaScript numbers that occur
in the payloads are integral, so `num` carries an `Int`. -/
inductive JVal where
  | null : JVal
  | bool : Bool → JVal
  | num : Int → JVal
  | str : String → JVal
  | buf : List Nat → JVal
  | arr : List JVal → JVal
  | obj : List (String × JVal) → JVal

/-- typeof v === "string" -/
def JVal.isStr : JVal → Bool
  | .str _ => true
  | _ => false

/-- typeof v === "object": objects, arrays, buffers, and null. -/
def JVal.isObjectLike : JVal → Bool
  | .null => true
  | .arr _ => true
  | .obj _ => true
  | .buf _ => true
  | _ => false

/-- Array.isArray v -/
def JVal.isArr : JVal → Bool
  | .arr _ => true
  | _ => false

/-- v is a plain object -/
def JVal.isObj : JVal → Bool
  | .obj _ => true
  | _ => false

/-- v === null (also covering undefined): a property read on it throws a
TypeError. -/
def JVal.isNull : JVal → Bool
  | .null => true
  | _ => false

/-- JavaScript truthiness of a value. -/
def jsTruthy : JVal → Bool
  | .null => false
  | .bool b => b
  | .num n => n != 0
  | .str s => s != ""
  | _ => true

/-- Lookup of a key in an object's field list: first binding wins, like a
JavaScript property read. -/
def jsLookup (fields : List (String × JVal)) (k : String) : Option JVal :=
  (fields.find? (fun p => p.1 == k)).map (fun p => p.2)

/-- Property access `v.k`.  Only plain objects carry the payload properties the
SDK reads; on every other value the read yields undefined, modelled as none. -/
def jsGetField (v : JVal) (k : String) : Option JVal :=
  match v with
  | .obj fields => jsLookup fields k
  | _ => none

/-- Property write `o.k = x` on a field list: replaces the (first) existing
binding of `k`, appending when absent, as on a JavaScript object. -/
def jsSet (fields : List (String × JVal)) (k : String) (x : JVal) :
    List (String × JVal) :=
  match fields with
  | [] => [(k, x)]
  | (k1, v1) :: rest =>
    if k1 = k then (k, x) :: rest else (k1, v1) :: jsSet rest k x

/-- Object spread `\x7b...v\x7d`: the fields of an object; index-keyed entries
for arrays, strings and buffers; empty for the remaining primitives. -/
def jsSpread : JVal → List (String × JVal)
  | .obj fields => fields
  | .arr xs => xs.enum.map (fun p => (toString p.1, p.2))
  | .str s => s.data.enum.map (fun p => (toString p.1, JVal.str (String.mk [p.2])))
  | .buf bs => bs.enum.map (fun p => (toString p.1, JVal.num (p.2 : Int)))
  | _ => []

/-- Value of a decimal digit character. -/
def decDigit (c : Char) : Option Nat :=
  if 48 ≤ c.toNat && c.toNat ≤ 57 then some (c.toNat - 48) else none

/-- Value of a hexadecimal digit character. -/
def hexDigit (c : Char) : Option Nat :=
  if 48 ≤ c.toNat && c.toNat ≤ 57 then some (c.toNat - 48)
  else if 65 ≤ c.toNat && c.toNat ≤ 70 then some (c.toNat - 55)
  else if 97 ≤ c.toNat && c.toNat ≤ 102 then some (c.toNat - 87)
  else none

/-- Accumulate the maximal leading run of digits. -/
def digitsAcc (dig : Char → Option Nat) (base : Nat) : List Char → Nat → Nat
  | [], acc => acc
  | c :: cs, acc =>
    match dig c with
    | some v => digitsAcc dig base cs (acc * base + v)
    | none => acc

/-- Whether the first character is a digit for `dig`. -/
def leadDigit (dig : Char → Option Nat) : List Char → Bool
  | [] => false
  | c :: _ => (dig c).isSome

/-- JavaScript parseInt with no radix argument: skip leading whitespace, take
an optional sign, honour a 0x/0X hexadecimal prefix, read the maximal leading
digit run; none models NaN. -/
def jsParseInt (s : String) : Option Int :=
  let cs := s.data.dropWhile (fun c => c.isWhitespace)
  let signed : Int × List Char :=
    match cs with
    | '-' :: rest => (-1, rest)
    | '+' :: rest => (1, rest)
    | _ => (1, cs)
  match signed.2 with
  | '0' :: 'x' :: rest =>
    if leadDigit hexDigit rest then some (signed.1 * (digitsAcc hexDigit 16 rest 0 : Int))
    else none
  | '0' :: 'X' :: rest =>
    if leadDigit hexDigit rest then some (signed.1 * (digitsAcc hexDigit 16 rest 0 : Int))
    else none
  | rest =>
    if leadDigit decDigit rest then some (signed.1 * (digitsAcc decDigit 10 rest 0 : Int))
    else none

/-- parseInt with NaN collapsed to 0, the shape both of `parseInt(x) || 0` and
of `if (isNaN(n)) n = 0` in WebhookParser. -/
def jsParseIntOr0 (s : String) : Int :=
  (jsParseInt s).getD 0

/-- Value of a base64 alphabet character. -/
def b64Val (c : Char) : Option Nat :=
  if 65 ≤ c.toNat && c.toNat ≤ 90 then some (c.toNat - 65)
  else if 97 ≤ c.toNat && c.toNat ≤ 122 then some (c.toNat - 71)
  else if 48 ≤ c.toNat && c.toNat ≤ 57 then some (c.toNat + 4)
  else if c = '+' then some 62
  else if c = '/' then some 63
  else none

/-- Pack a run of 6-bit base64 values into bytes: full groups of four give
three bytes, a trailing three give two, a trailing two give one, and a lone
trailing value (fewer than 8 bits) yields nothing. -/
def packB64 : List Nat → List Nat
  | v1 :: v2 :: v3 :: v4 :: rest =>
    (v1 * 4 + v2 / 16) :: ((v2 % 16) * 16 + v3 / 4) :: ((v3 % 4) * 64 + v4) ::
      packB64 rest
  | [v1, v2, v3] => [v1 * 4 + v2 / 16, (v2 % 16) * 16 + v3 / 4]
  | [v1, v2] => [v1 * 4 + v2 / 16]
  | _ => []

/-- Node's lenient base64 decoding, the behavior of Buffer.from(s, "base64")
on a string: it never throws — characters outside the base64 alphabet are
simply ignored, decoding stops at the first padding character, and the 6-bit
values read so far are packed into bytes (possibly none).  Consequently the
catch around the call in recursiveBufferDecode is unreachable for string
input. -/
def nodeBase64Decode (s : String) : List Nat :=
  packB64 ((s.data.takeWhile (fun c => c != '=')).filterMap b64Val)

/-- The recognized Buffer field names of WebhookParser.recursiveBufferDecode. -/
def bufferFields : List String :=
  ["jpegThumbnail", "mediaKey", "fileEncSha256", "fileSha256", "fileLength"]

/-- The base64 decode of one recognized string field: Buffer.from never
throws on a string, so the field always becomes the lenient best-effort
buffer (the empty buffer when no alphabet character occurs). -/
def decodeB64 : JVal → JVal
  | .str s => .buf (nodeBase64Decode s)
  | v => v

mutual

/-- WebhookParser.recursiveBufferDecode, functionally: the for-in loop over an
object visits each field; over an array it visits each index (index keys are
never recognized field names, so only object-typed elements recurse); the
early `if (!obj) return` and the non-object leaves are identities. -/
def recursiveBufferDecode : JVal → JVal
  | .obj fields => .obj (decodeFields fields)
  | .arr xs => .arr (decodeElems xs)
  | v => v

/-- One pass of the for-in loop over an object's fields. -/
def decodeFields : List (String × JVal) → List (String × JVal)
  | [] => []
  | (k, v) :: rest =>
    (k,
      if bufferFields.contains k && v.isStr then decodeB64 v
      else if v.isObjectLike then recursiveBufferDecode v
      else v) :: decodeFields rest

/-- One pass of the for-in loop over an array's indices. -/
def decodeElems : List JVal → List JVal
  | [] => []
  | v :: rest =>
    (if v.isObjectLike then recursiveBufferDecode v else v) :: decodeElems rest

end

/-- The treatment recursiveBufferDecode applies to a single field named `k`. -/
def decodeEntry (k : String) (v : JVal) : JVal :=
  if bufferFields.contains k && v.isStr then decodeB64 v
  else if v.isObjectLike then recursiveBufferDecode v
  else v

/-- The shared shape of the timestamp conversions: when the field is present,
truthy and a string, replace it by its parseInt value with NaN collapsed to 0
(`parseInt(x) || 0` in reconstructGroup/reconstructChat, `isNaN` check in
reconstructMessage — the same function). -/
def normTsField (k : String) (fields : List (String × JVal)) :
    List (String × JVal) :=
  match jsLookup fields k with
  | some (.str s) =>
    if s = "" then fields else jsSet fields k (.num (jsParseIntOr0 s))
  | _ => fields

/-- WebhookParser.reconstructGroup: shallow copy, then normalize `creation`. -/
def reconstructGroup (group : JVal) : JVal :=
  .obj (normTsField "creation" (jsSpread group))

/-- WebhookParser.reconstructChat: shallow copy, then normalize the two chat
timestamp fields. -/
def reconstructChat (chat : JVal) : JVal :=
  .obj (normTsField "lastMessageRecvTimestamp"
    (normTsField "conversationTimestamp" (jsSpread chat)))

/-- The recursiveBufferDecode(msg.message) call of reconstructMessage: run the
decoder on the `message` property when present (mutation of a primitive or
absent property is impossible, so those cases leave the fields unchanged). -/
def decodeMsgField (fields : List (String × JVal)) : List (String × JVal) :=
  match jsLookup fields "message" with
  | some v => jsSet fields "message" (recursiveBufferDecode v)
  | none => fields

/-- WebhookParser.reconstructMessage: normalize `messageTimestamp` in place,
then run recursiveBufferDecode on the `message` property.  Reading
msg.messageTimestamp on a null entry throws a TypeError (none); a property
read on any other primitive yields undefined without throwing, so such
entries are returned unchanged. -/
def reconstructMessage (msg : JVal) : Option JVal :=
  match msg with
  | .obj fields =>
    some (.obj (decodeMsgField (normTsField "messageTimestamp" fields)))
  | .null => none
  | v => some v

/-- The messages.map(msg => reconstructMessage(msg)) call: a TypeError thrown
by any entry escapes from the whole map. -/
def reconstructAll : List JVal → Option (List JVal)
  | [] => some []
  | m :: rest =>
    match reconstructMessage m with
    | some m2 =>
      match reconstructAll rest with
      | some rest2 => some (m2 :: rest2)
      | none => none
    | none => none

/-- Map f over the payload when it is an array, return it unchanged otherwise
(the `if (!Array.isArray(payload)) return payload` guards). -/
def mapIfArray (f : JVal → JVal) (payload : JVal) : JVal :=
  match payload with
  | .arr xs => .arr (xs.map f)
  | v => v

/-- The body of parseMessageUpsert once `payload.messages` was read: a falsy
value returns the payload, an array is mapped through reconstructMessage
(a TypeError on a null entry escaping) and written back on a shallow copy,
and any other truthy value makes the `.map` call throw (none). -/
def upsertMsgs (payload : JVal) (msgs : JVal) : Option JVal :=
  if !jsTruthy msgs then some payload
  else
    match msgs with
    | .arr xs =>
      (reconstructAll xs).map
        (fun ys => .obj (jsSet (jsSpread payload) "messages" (.arr ys)))
    | _ => none

/-- WebhookParser.parseMessageUpsert.  none models the TypeError escaping when
`payload.messages` is truthy but not an array (`.map` on a non-array); every
other path returns normally. -/
def parseMessageUpsert (payload : JVal) : Option JVal :=
  if !jsTruthy payload then some payload
  else
    match jsGetField payload "messages" with
    | none => some payload
    | some msgs => upsertMsgs payload msgs

/-- WebhookParser.parse: the switch over event names.  contacts events return
the payload raw; none models an exception escaping to the caller. -/
def parse (event : String) (payload : JVal) : Option JVal :=
  match event with
  | "messages.upsert" => parseMessageUpsert payload
  | "messages.update" => some payload
  | "contacts.upsert" => some payload
  | "contacts.update" => some payload
  | "chats.upsert" => some (mapIfArray reconstructChat payload)
  | "chats.update" => some (mapIfArray reconstructChat payload)
  | "groups.upsert" => some (mapIfArray reconstructGroup payload)
  | "groups.update" => some (mapIfArray reconstructGroup payload)
  | "connection.update" => some payload
  | _ => some payload

/-- The payload shape the server forwards for every baileys event over the
socket connection. -/
structure BaileysEventPayload where
  sessionUUID : String
  data : JVal

/-- SocketConnection.setupEventHandlers: the handler body registered for each
baileys event name.  Returns the (eventName, data) pair emitted as a
baileys:event, or none when the event is dropped: wrong session, or a
connection.update close whose reason is neither logged_out nor
max_reconnect_attempts. -/
def socketEventFilter (cfgSessionUUID : String) (eventName : String)
    (payload : BaileysEventPayload) : Option (String × JVal) :=
  if payload.sessionUUID = cfgSessionUUID then
    if eventName = "connection.update" then
      match jsGetField payload.data "connection" with
      | some (.str "close") =>
        match jsGetField payload.data "reason" with
        | some (.str "logged_out") => some (eventName, payload.data)
        | some (.str "max_reconnect_attempts") => some (eventName, payload.data)
        | _ => none
      | some (.str "open") => some (eventName, payload.data)
      | _ => some (eventName, payload.data)
    else some (eventName, payload.data)
  else none

/-- VexClient's visible connection status; `opened`/`closed` stand for the
source's 'open'/'close' (Lean keywords). -/
inductive ConnectionStatus where
  | connecting
  | opened
  | qrcode
  | closed
deriving DecidableEq

/-- VexClient.injectEvent: normalize the data through WebhookParser.parse,
update the visible connection status when the event is connection.update,
and emit the normalized event; a parse exception is caught, the raw data is
emitted instead and the status is untouched.  Returns the new status and the
(event, data) pair emitted to consumers. -/
def injectEvent (status : ConnectionStatus) (event : String) (data : JVal) :
    ConnectionStatus × (String × JVal) :=
  match parse event data with
  | some normalized =>
    let status1 :=
      if event = "connection.update" then
        match jsGetField normalized "connection" with
        | some (.str "open") => ConnectionStatus.opened
        | some (.str "close") => ConnectionStatus.closed
        | _ =>
          match jsGetField normalized "qrCode" with
          | some q => if jsTruthy q then ConnectionStatus.qrcode else status
          | none => status
      else status
    (status1, (event, normalized))
  | none => (status, (event, data))

/-- Push-path processing of one socket event end to end: the SocketConnection
handler filters it, and a surviving event is handed to VexClient.injectEvent
(the baileys:event subscription).  Returns the resulting visible status and
the list of events emitted to consumers. -/
def processSocketEvent (cfg : String) (status : ConnectionStatus)
    (eventName : String) (payload : BaileysEventPayload) :
    ConnectionStatus × List (String × JVal) :=
  match socketEventFilter cfg eventName payload with
  | none => (status, [])
  | some (e, d) =>
    let r := injectEvent status e d
    (r.1, [r.2])

/-- The socket send-message acknowledgement shape. -/
structure SocketSendResponse where
  success : Bool
  messageId : Option String
  errorMsg : Option String

/-- The HTTP send-message response shape of POST /sessions/id/messages. -/
structure HttpSendResponse where
  messageId : String
  status : String

/-- How one sendMessageFast call was carried out.  `enqueued` is the outcome
the outbox would produce; it exists so that its absence is expressible. -/
inductive FastSendResult where
  | viaSocket (r : Except String SocketSendResponse)
  | viaHttp (r : Except String HttpSendResponse)
  | enqueued

/-- Whether the result came from the HTTP fallback path. -/
def FastSendResult.isHttp : FastSendResult → Bool
  | .viaHttp _ => true
  | _ => false

/-- Whether the result was an outbox enqueue. -/
def FastSendResult.isEnqueued : FastSendResult → Bool
  | .enqueued => true
  | _ => false

/-- SocketConnection's default messageTimeout (300000 ms = 5 min). -/
def defaultMessageTimeout : Nat := 300000

/-- SocketConnection.sendMessage's effective timeout:
timeout ?? config.messageTimeout. -/
def effectiveTimeout (timeout? : Option Nat) (messageTimeout : Nat) : Nat :=
  timeout?.getD messageTimeout

/-- VexClient.sendMessageFast: when the socket connection is currently
connected the send goes over it (the socket attempt is an oracle of the
effective timeout, an Except whose error is a rejection such as the send
timeout); otherwise the send goes over HTTP.  The source returns the socket
promise directly, so no other path exists. -/
def sendMessageFast (socketConnected : Bool) (timeout? : Option Nat)
    (messageTimeout : Nat)
    (socketAttempt : Nat → Except String SocketSendResponse)
    (httpAttempt : Except String HttpSendResponse) : FastSendResult :=
  if socketConnected then
    .viaSocket (socketAttempt (effectiveTimeout timeout? messageTimeout))
  else
    .viaHttp httpAttempt

/-- The axios error shape the retry condition of HttpClient.setupRetry reads:
the error code, the optional HTTP response status, and the verdict of the
external library predicate axiosRetry.isNetworkOrIdempotentRequestError
(which classifies network-level errors; it is outside this repository, so it
enters the model as a field). -/
structure AxiosErrorModel where
  code : Option String
  status : Option Nat
  networkVerdict : Bool

/-- HttpClient.setupRetry's retryDelay callback:
min(baseDelay * 2^(retryCount-1), 16000). -/
def retryDelay (baseDelay : Nat) (retryCount : Nat) : Nat :=
  min (baseDelay * 2 ^ (retryCount - 1)) 16000

/-- HttpClient.setupRetry's retryCondition callback. -/
def retryCondition (e : AxiosErrorModel) : Bool :=
  if e.code = some "ECONNREFUSED" then false
  else if e.status = some 401 ∨ e.status = some 403 then false
  else if e.status = some 400 ∨ e.status = some 422 then false
  else
    e.networkVerdict ||
      (match e.status with
        | some s => decide (500 ≤ s)
        | none => false)

/-- The HttpClient constructor's defaulted maxRetries (config ?? 5). -/
def httpMaxRetries (cfgMaxRetries : Option Nat) : Nat :=
  cfgMaxRetries.getD 5

/-- What setupRetry registers with axios-retry. -/
structure HttpRetryRegistration where
  retries : Nat
  delayOf : Nat → Nat
  condOf : AxiosErrorModel → Bool

/-- HttpClient.setupRetry: registers the configured retry count, the
exponential delay and the retry condition. -/
def setupRetry (maxRetries baseDelay : Nat) : HttpRetryRegistration :=
  { retries := maxRetries
    delayOf := retryDelay baseDelay
    condOf := retryCondition }

/-- One observed outcome of an HTTP request, as the online/offline tracking
classifies it. -/
inductive ReqOutcome where
  | success
  | retryableFailure
  | connRefused
  | fatalFailure

/-- The two notifications the HTTP client can fire. -/
inductive TransitionNotice where
  | wentOffline
  | wentOnline
deriving DecidableEq

/-- Modelled from the spec: the HttpClient that fires the
onServerOffline/onServerOnline callbacks is missing from src —
src/src/lib/HttpClient.ts has neither callback nor healthCheck, although
src/src/index.ts installs both callbacks and calls healthCheck.  Per the
spec, a successful request after a prior failure streak fires the
offline-to-online notification, and the first retryable failure (or
connection-refused) fires the online-to-offline notification, edge-triggered.
This step takes the current online flag and one request outcome and returns
the new flag and the notification fired, if any. -/
def notifyStep (online : Bool) (o : ReqOutcome) : Bool × Option TransitionNotice :=
  match o with
  | .success => (true, if online then none else some .wentOnline)
  | .retryableFailure => (false, if online then some .wentOffline else none)
  | .connRefused => (false, if online then some .wentOffline else none)
  | .fatalFailure => (online, none)

/-- Run the notification tracking over a sequence of request outcomes,
collecting the notifications in order. -/
def notifyRun (online : Bool) : List ReqOutcome → Bool × List TransitionNotice
  | [] => (online, [])
  | o :: rest =>
    let s := notifyStep online o
    let r := notifyRun s.1 rest
    (r.1, s.2.toList ++ r.2)

/-- The flag trace induced by a sequence of outcomes, starting flag first. -/
def notifyTrace (online : Bool) : List ReqOutcome → List Bool
  | [] => [online]
  | o :: rest => online :: notifyTrace (notifyStep online o).1 rest

/-- The edges (flag flips) of a flag trace: one wentOffline per true→false
flip, one wentOnline per false→true flip, nothing elsewhere. -/
def traceEdges : List Bool → List TransitionNotice
  | a :: b :: rest =>
    (if a && !b then [TransitionNotice.wentOffline]
      else if !a && b then [TransitionNotice.wentOnline]
      else []) ++ traceEdges (b :: rest)
  | _ => []

/-- One pending outbound operation of the MessageQueue. -/
structure QueuedMessage where
  id : String
  sessionId : String
  jid : String
  message : JVal
  options : Option JVal
  createdAt : Int
  attempts : Nat
  lastAttempt : Option Int
  lastError : Option String

/-- MessageQueue configuration after constructor defaulting. -/
structure QueueConfig where
  maxAttempts : Nat
  baseDelay : Nat
  maxDelay : Nat
  persistInterval : Nat
  maxAge : Nat
  maxQueueSize : Nat

/-- `config.x || default`: JavaScript || takes the default for absent and 0
alike. -/
def jsNumOr (v : Option Nat) (d : Nat) : Nat :=
  match v with
  | some n => if n = 0 then d else n
  | none => d

/-- The MessageQueue constructor's config defaulting. -/
def mkQueueConfig (maxAttempts? baseDelay? maxDelay? persistInterval? maxAge?
    maxQueueSize? : Option Nat) : QueueConfig :=
  { maxAttempts := jsNumOr maxAttempts? 100
    baseDelay := jsNumOr baseDelay? 5000
    maxDelay := jsNumOr maxDelay? 60000
    persistInterval := jsNumOr persistInterval? 5000
    maxAge := jsNumOr maxAge? (48 * 60 * 60 * 1000)
    maxQueueSize := jsNumOr maxQueueSize? 10000 }

/-- The all-defaults MessageQueue configuration. -/
def defaultQueueConfig : QueueConfig :=
  mkQueueConfig none none none none none none

/-- The notifications the MessageQueue emits. -/
inductive QueueEvent where
  | queuedEv (m : QueuedMessage)
  | sentEv (m : QueuedMessage)
  | failedEv (m : QueuedMessage)
  | expiredEv (m : QueuedMessage)
  | processingEv (sessionId : String) (count : Nat)
  | emptyEv (sessionId : String)
  | errorEv

/-- MessageQueue.enqueue acting on one session's queue: at capacity the
oldest entry is shifted out with a message:expired notification, then the
fresh operation (attempts 0, no error yet) is appended and message:queued
emitted; the returned flag says whether processing is scheduled (exactly
when the server is believed online). -/
def enqueue (cfg : QueueConfig) (queue : List QueuedMessage) (newId : String)
    (sessionId jid : String) (message : JVal) (options : Option JVal)
    (now : Int) (serverOnline : Bool) :
    List QueuedMessage × List QueueEvent × Bool :=
  let shifted :=
    if cfg.maxQueueSize ≤ queue.length then
      match queue with
      | removed :: rest => (rest, [QueueEvent.expiredEv removed])
      | [] => ([], [])
    else (queue, [])
  let m : QueuedMessage :=
    { id := newId, sessionId := sessionId, jid := jid, message := message,
      options := options, createdAt := now, attempts := 0,
      lastAttempt := none, lastError := none }
  (shifted.1 ++ [m], shifted.2 ++ [QueueEvent.queuedEv m], serverOnline)

/-- MessageQueue.calculateDelay with the Math.random() draw passed in as r
(JavaScript numbers abstracted to exact rationals):
floor(min(baseDelay * 2^(attempts-1), maxDelay) + that * 0.2 * r). -/
def calculateDelay (cfg : QueueConfig) (attempts : Nat) (r : ℚ) : Int :=
  let d : ℚ := min ((cfg.baseDelay : ℚ) * 2 ^ (attempts - 1)) (cfg.maxDelay : ℚ)
  ⌊d + d * (2 / 10) * r⌋

/-- MessageQueue.cleanExpiredMessages on one session's queue: drop operations
older than maxAge, one message:expired notification per dropped one. -/
def cleanExpired (cfg : QueueConfig) (now : Int)
    (queue : List QueuedMessage) : List QueuedMessage × List QueueEvent :=
  (queue.filter (fun m => !decide ((cfg.maxAge : Int) < now - m.createdAt)),
    (queue.filter (fun m => decide ((cfg.maxAge : Int) < now - m.createdAt))).map
      QueueEvent.expiredEv)

/-- The while loop of MessageQueue.processQueue.  The injected send function
is the oracle sendRes (ok = delivered, error carries the thrown message) and
the server stays online throughout the invocation (the model of one
uninterrupted drain).  Per head operation: past maxAttempts it is dropped
with message:failed; otherwise attempts and lastAttempt are bumped and the
send attempted — on success the operation leaves the queue with
message:sent, on failure the error is recorded, the operation moves to the
tail, and the loop stops, returning the delay handed to scheduleProcessing. -/
def processLoop (cfg : QueueConfig)
    (sendRes : QueuedMessage → Except String Unit) (now : Int) (r : ℚ) :
    List QueuedMessage → List QueuedMessage × List QueueEvent × Option Int
  | [] => ([], [], none)
  | m :: rest =>
    if cfg.maxAttempts ≤ m.attempts then
      let x := processLoop cfg sendRes now r rest
      (x.1, QueueEvent.failedEv m :: x.2.1, x.2.2)
    else
      let m1 := { m with attempts := m.attempts + 1, lastAttempt := some now }
      match sendRes m1 with
      | .ok _ =>
        let x := processLoop cfg sendRes now r rest
        (x.1, QueueEvent.sentEv m1 :: x.2.1, x.2.2)
      | .error e =>
        let m2 := { m1 with lastError := some e }
        (rest ++ [m2], [], some (calculateDelay cfg m2.attempts r))

/-- The result of one processQueue invocation: the session's queue afterwards,
the notifications in order, and the scheduleProcessing delay when one was
requested. -/
structure ProcessOutcome where
  queue : List QueuedMessage
  events : List QueueEvent
  resched : Option Int

/-- MessageQueue.processQueue for one session, one invocation: bail out when
no send function is configured or the server is offline; an empty queue just
emits queue:empty; otherwise emit queue:processing with the pre-clean count,
purge expired operations, run the drain loop, and finally either keep the
failure reschedule, schedule again in 1000ms when operations remain, or
emit queue:empty. -/
def processQueue (cfg : QueueConfig) (hasSendFn online : Bool)
    (sendRes : QueuedMessage → Except String Unit) (now : Int) (r : ℚ)
    (sessionId : String) (queue : List QueuedMessage) : ProcessOutcome :=
  if !hasSendFn then ⟨queue, [], none⟩
  else if !online then ⟨queue, [], none⟩
  else if queue.isEmpty then ⟨queue, [QueueEvent.emptyEv sessionId], none⟩
  else
    let c := cleanExpired cfg now queue
    let x := processLoop cfg sendRes now r c.1
    let evs := QueueEvent.processingEv sessionId queue.length :: c.2 ++ x.2.1
    match x.2.2 with
    | some d => ⟨x.1, evs, some d⟩
    | none =>
      if x.1.length ≠ 0 then ⟨x.1, evs, some 1000⟩
      else ⟨x.1, evs ++ [QueueEvent.emptyEv sessionId], none⟩

/-- The whole-queue state of the MessageQueue that destroy touches. -/
structure MQState where
  queues : List (String × List QueuedMessage)
  persistTimerSet : Bool
  processingTimers : List String
  serverOnline : Bool
  isDirty : Bool

/-- The document saveToDisk writes: only sessions with at least one pending
operation. -/
def saveData (queues : List (String × List QueuedMessage)) :
    List (String × List QueuedMessage) :=
  queues.filter (fun p => !p.2.isEmpty)

/-- MessageQueue.saveToDisk: rewrite the persisted file wholesale with every
non-empty queue and clear the dirty flag; a file-system error (fsOk false)
is caught, emits queue:error and leaves the state as it was. -/
def saveToDisk (st : MQState) (fsOk : Bool) :
    MQState × Option (List (String × List QueuedMessage)) × List QueueEvent :=
  if fsOk then
    ({ st with isDirty := false }, some (saveData st.queues), [])
  else
    (st, none, [QueueEvent.errorEv])

/-- MessageQueue.destroy: stop the persistence interval timer, cancel every
per-session processing timer, then save to disk unconditionally — no dirty
check. -/
def destroyQueue (st : MQState) (fsOk : Bool) :
    MQState × Option (List (String × List QueuedMessage)) × List QueueEvent :=
  saveToDisk { st with persistTimerSet := false, processingTimers := [] } fsOk

/-- MessageQueue.loadFromDisk on an existing persisted document: drop already
expired operations and keep only sessions still holding at least one. -/
def loadFromDisk (cfg : QueueConfig) (now : Int)
    (data : List (String × List QueuedMessage)) :
    List (String × List QueuedMessage) :=
  (data.map (fun p => (p.1, p.2.filter
      (fun m => !decide ((cfg.maxAge : Int) < now - m.createdAt))))).filter
    (fun p => !p.2.isEmpty)

/-- The logical timer duties of one VexClient instance: periodic health
check, the poll loop, and the reconnect schedule. -/
inductive Duty where
  | health
  | poll
  | reconnect
deriving DecidableEq

/-- The pending-timer environment of one client plus its handle fields:
`pending` are the timers currently scheduled in the runtime (duty, id),
`fresh` the next timer id, and the three handle fields mirror
_healthCheckTimer, _pollingTimer and _reconnectTimer. -/
structure TimerState where
  pending : List (Duty × Nat)
  fresh : Nat
  healthHandle : Option Nat
  pollHandle : Option Nat
  reconnectHandle : Option Nat
  destroyed : Bool

/-- The state at VexClient construction: no timers. -/
def initTimerState : TimerState :=
  { pending := [], fresh := 0, healthHandle := none, pollHandle := none,
    reconnectHandle := none, destroyed := false }

/-- The handle field tracking a duty. -/
def TimerState.handleOf (st : TimerState) : Duty → Option Nat
  | .health => st.healthHandle
  | .poll => st.pollHandle
  | .reconnect => st.reconnectHandle

/-- clearInterval/clearTimeout on a handle id (a no-op on an already fired
one-shot timer, as in the runtime). -/
def cancelTimer (st : TimerState) (id : Nat) : TimerState :=
  { st with pending := st.pending.filter (fun e => !decide (e.2 = id)) }

/-- setInterval/setTimeout: schedule a fresh timer for the duty, returning
its id. -/
def setTimer (st : TimerState) (d : Duty) : TimerState × Nat :=
  ({ st with pending := (d, st.fresh) :: st.pending, fresh := st.fresh + 1 },
    st.fresh)

/-- VexClient.stopHealthCheck: clear the interval and null the handle. -/
def stopHealthCheck (st : TimerState) : TimerState :=
  match st.healthHandle with
  | some id => { cancelTimer st id with healthHandle := none }
  | none => st

/-- VexClient.stopPolling: clear the interval and null the handle. -/
def stopPolling (st : TimerState) : TimerState :=
  match st.pollHandle with
  | some id => { cancelTimer st id with pollHandle := none }
  | none => st

/-- VexClient.startHealthCheck: bail on a non-positive interval or after
destroy; otherwise stop any existing health timer first, then set a new
interval and store its handle. -/
def startHealthCheck (interval : Int) (st : TimerState) : TimerState :=
  if interval ≤ 0 ∨ st.destroyed then st
  else
    let x := setTimer (stopHealthCheck st) .health
    { x.1 with healthHandle := some x.2 }

/-- VexClient.startPolling: same pattern as startHealthCheck. -/
def startPolling (interval : Int) (st : TimerState) : TimerState :=
  if interval ≤ 0 ∨ st.destroyed then st
  else
    let x := setTimer (stopPolling st) .poll
    { x.1 with pollHandle := some x.2 }

/-- VexClient.scheduleReconnect: refuse when reconnection is disabled, the
attempt budget is exhausted, or the client destroyed; clear any existing
reconnect timeout (without nulling the field, as the source does), then set
a new one and store its handle. -/
def scheduleReconnect (enabled canR : Bool) (st : TimerState) : TimerState :=
  if !enabled || !canR || st.destroyed then st
  else
    let st1 :=
      match st.reconnectHandle with
      | some id => cancelTimer st id
      | none => st
    let x := setTimer st1 .reconnect
    { x.1 with reconnectHandle := some x.2 }

/-- The reconnect setTimeout firing: the runtime retires the one-shot timer
(the attemptReconnect body is whatever trace follows); the handle field is
left stale, as in the source. -/
def fireReconnect (st : TimerState) : TimerState :=
  match st.reconnectHandle with
  | some id => cancelTimer st id
  | none => st

/-- forceReconnect's (and logout's/destroy's) reconnect-timer bookkeeping:
clear the timeout and null the handle. -/
def clearReconnectTimer (st : TimerState) : TimerState :=
  match st.reconnectHandle with
  | some id => { cancelTimer st id with reconnectHandle := none }
  | none => st

/-- VexClient.destroy's timer bookkeeping: mark destroyed, clear the
reconnect timer, stop health check and polling. -/
def destroyTimers (st : TimerState) : TimerState :=
  stopPolling (stopHealthCheck (clearReconnectTimer { st with destroyed := true }))

/-- VexClient.logout's timer bookkeeping: clear the reconnect timer, stop
health check and polling. -/
def logoutTimers (st : TimerState) : TimerState :=
  stopPolling (stopHealthCheck (clearReconnectTimer st))

/-- connectSocketIO's success path (mode switch to push): stop polling and
health check. -/
def socketModeSwitch (st : TimerState) : TimerState :=
  stopHealthCheck (stopPolling st)

/-- The timer-touching operations of one VexClient instance. -/
inductive ClientOp where
  | startHealth (interval : Int)
  | stopHealth
  | startPoll (interval : Int)
  | stopPoll
  | schedReconnect (enabled canR : Bool)
  | fireReconnectOp
  | forceReconnectOp
  | logoutOp
  | socketModeSwitchOp
  | destroyOp

/-- One step of the client timer machine. -/
def clientStep (st : TimerState) : ClientOp → TimerState
  | .startHealth i => startHealthCheck i st
  | .stopHealth => stopHealthCheck st
  | .startPoll i => startPolling i st
  | .stopPoll => stopPolling st
  | .schedReconnect e c => scheduleReconnect e c st
  | .fireReconnectOp => fireReconnect st
  | .forceReconnectOp => clearReconnectTimer st
  | .logoutOp => logoutTimers st
  | .socketModeSwitchOp => socketModeSwitch st
  | .destroyOp => destroyTimers st

/-- Run a trace of client timer operations. -/
def clientRun (st : TimerState) : List ClientOp → TimerState
  | [] => st
  | op :: rest => clientRun (clientStep st op) rest

/-- The per-session drain-timer state of the MessageQueue. -/
structure MQTimers where
  pendingDrain : List (String × Nat)
  fresh : Nat
  processingFlags : List String
  online : Bool

/-- The MessageQueue construction state: no timers, server believed online. -/
def initMQTimers : MQTimers :=
  { pendingDrain := [], fresh := 0, processingFlags := [], online := true }

/-- MessageQueue.scheduleProcessing: refuse when the server is offline, when
a processing timer for the session is already pending, or while the session
is mid-drain; otherwise schedule one. -/
def scheduleProcessing (sid : String) (st : MQTimers) : MQTimers :=
  if !st.online then st
  else if st.pendingDrain.any (fun e => e.1 == sid) then st
  else if st.processingFlags.contains sid then st
  else
    { st with
      pendingDrain := (sid, st.fresh) :: st.pendingDrain
      fresh := st.fresh + 1 }

/-- A drain timer firing: the runtime retires the one-shot timer and
processQueue runs; resched says whether that run ended by calling
scheduleProcessing again (failure backoff or leftover work). -/
def fireDrain (sid : String) (resched : Bool) (st : MQTimers) : MQTimers :=
  let st1 :=
    { st with pendingDrain := st.pendingDrain.filter (fun e => !(e.1 == sid)) }
  if resched then scheduleProcessing sid st1 else st1

/-- MessageQueue.setServerOnline: on an offline→online edge, schedule
processing for every session with a queue. -/
def setServerOnline (sids : List String) (st : MQTimers) : MQTimers :=
  if st.online then st
  else sids.foldl (fun s sid => scheduleProcessing sid s) { st with online := true }

/-- MessageQueue.setServerOffline: on an online→offline edge, cancel every
scheduled processing timer. -/
def setServerOffline (st : MQTimers) : MQTimers :=
  if st.online then { st with online := false, pendingDrain := [] } else st

/-- MessageQueue.clearSession: cancel the session's processing timer. -/
def clearSessionTimers (sid : String) (st : MQTimers) : MQTimers :=
  { st with pendingDrain := st.pendingDrain.filter (fun e => !(e.1 == sid)) }

/-- MessageQueue.clearAll / destroy: cancel every processing timer. -/
def clearAllTimers (st : MQTimers) : MQTimers :=
  { st with pendingDrain := [] }

/-- enqueue's scheduling side: schedule the session when the server is
believed online. -/
def enqueueSchedule (sid : String) (st : MQTimers) : MQTimers :=
  if st.online then scheduleProcessing sid st else st

/-- isProcessing flag updates done inside processQueue. -/
def setProcessingFlag (sid : String) (b : Bool) (st : MQTimers) : MQTimers :=
  if b then
    { st with processingFlags := sid :: st.processingFlags }
  else
    { st with processingFlags := st.processingFlags.filter (fun x => !(x == sid)) }

/-- The timer-touching operations of the MessageQueue. -/
inductive MQOp where
  | schedule (sid : String)
  | fire (sid : String) (resched : Bool)
  | onlineOp (sids : List String)
  | offlineOp
  | enqueueOp (sid : String)
  | clearSessionOp (sid : String)
  | clearAllOp
  | destroyOp
  | setProcessing (sid : String) (b : Bool)

/-- One step of the queue timer machine. -/
def mqStep (st : MQTimers) : MQOp → MQTimers
  | .schedule sid => scheduleProcessing sid st
  | .fire sid resched => fireDrain sid resched st
  | .onlineOp sids => setServerOnline sids st
  | .offlineOp => setServerOffline st
  | .enqueueOp sid => enqueueSchedule sid st
  | .clearSessionOp sid => clearSessionTimers sid st
  | .clearAllOp => clearAllTimers st
  | .destroyOp => clearAllTimers st
  | .setProcessing sid b => setProcessingFlag sid b st

/-- Run a trace of queue timer operations. -/
def mqRun (st : MQTimers) : List MQOp → MQTimers
  | [] => st
  | op :: rest => mqRun (mqStep st op) rest

/-- The bookkeeping invariant of the client timer machine: every pending
timer's id is below the freshness counter and is exactly what its duty's
handle field stores, and pending ids are pairwise distinct. -/
def goodTimers (st : TimerState) : Prop :=
  (∀ e ∈ st.pending, e.2 < st.fresh) ∧
  (∀ e ∈ st.pending, st.handleOf e.1 = some e.2) ∧
  (st.pending.map (fun e => e.2)).Nodup

/-- Member-wise induction principle for `JVal`. -/
def JVal.recMem {motive : JVal → Prop}
    (hnull : motive .null)
    (hbool : ∀ b, motive (.bool b))
    (hnum : ∀ n, motive (.num n))
    (hstr : ∀ s, motive (.str s))
    (hbuf : ∀ bs, motive (.buf bs))
    (harr : ∀ xs, (∀ x ∈ xs, motive x) → motive (.arr xs))
    (hobj : ∀ fs, (∀ p ∈ fs, motive p.2) → motive (.obj fs)) :
    ∀ v, motive v
  | .null => hnull
  | .bool b => hbool b
  | .num n => hnum n
  | .str s => hstr s
  | .buf bs => hbuf bs
  | .arr xs =>
    harr xs (fun x hx =>
      JVal.recMem hnull hbool hnum hstr hbuf harr hobj x)
  | .obj fs =>
    hobj fs (fun p hp =>
      JVal.recMem hnull hbool hnum hstr hbuf harr hobj p.2)
termination_by v => sizeOf v
decreasing_by
  · have h := List.sizeOf_lt_of_mem hx
    simp only [JVal.arr.sizeOf_spec]
    omega
  · have h1 := List.sizeOf_lt_of_mem hp
    have h2 : sizeOf p.2 < sizeOf p := by
      cases p <;> simp <;> omega
    simp only [JVal.obj.sizeOf_spec]
    omega

/-- The timestamp field names the parser converts from decimal strings. -/
def tsFields : List String :=
  ["creation", "conversationTimestamp", "lastMessageRecvTimestamp",
    "messageTimestamp"]

mutual

/-- The already-normalized shape of the idempotence claim: recursively, no
recognized binary field and no timestamp field holds a string (binary fields
already buffers, timestamps already numbers). -/
def pnorm : JVal → Bool
  | .obj fields => pnormFields fields
  | .arr xs => pnormElems xs
  | _ => true

/-- pnorm over an object's fields. -/
def pnormFields : List (String × JVal) → Bool
  | [] => true
  | (k, v) :: rest =>
    (!(bufferFields.contains k || tsFields.contains k) || !v.isStr) &&
      pnorm v && pnormFields rest

/-- pnorm over an array's elements. -/
def pnormElems : List JVal → Bool
  | [] => true
  | v :: rest => pnorm v && pnormElems rest

end

/-- Structural well-formedness the idempotence claim presupposes of an event
payload: a truthy `messages` property is an array of non-null entries
(otherwise the source throws on any payload, normalized or not: `.map` on a
non-array, and the msg.messageTimestamp read of reconstructMessage on a null
entry), and chat/group list entries are objects (the reconstruct helpers
shallow-copy their entries, so a primitive entry would be rewritten into an
index-keyed object by the spread even though no field of it changes). -/
def wfPayload (event : String) (payload : JVal) : Bool :=
  match event with
  | "messages.upsert" =>
    match jsGetField payload "messages" with
    | some m =>
      !jsTruthy m ||
        (match m with
          | .arr xs => xs.all (fun x => !x.isNull)
          | _ => false)
    | none => true
  | "chats.upsert" | "chats.update" | "groups.upsert" | "groups.update" =>
    match payload with
    | .arr xs => xs.all (fun x => x.isObj)
    | _ => true
  | _ => true

theorem decodeFields_eq_map (l : List (String × JVal)) :
    decodeFields l = l.map (fun p => (p.1, decodeEntry p.1 p.2)) := by
  induction l with
  | nil => simp [decodeFields]
  | cons p rest ih =>
    cases p with
    | mk k v => simp [decodeFields, decodeEntry, ih]

theorem decodeElems_eq_map (l : List JVal) :
    decodeElems l =
      l.map (fun v => if v.isObjectLike then recursiveBufferDecode v else v) := by
  induction l with
  | nil => simp [decodeElems]
  | cons v rest ih => simp [decodeElems, ih]

theorem pnormFields_mem {l : List (String × JVal)} {k : String} {v : JVal}
    (hall : pnormFields l = true) (hmem : (k, v) ∈ l) :
    pnorm v = true ∧
      ((bufferFields.contains k || tsFields.contains k) = true →
        v.isStr = false) := by
  induction l with
  | nil => cases hmem
  | cons p rest ih =>
    cases p with
    | mk k1 v1 =>
      simp only [pnormFields, Bool.and_eq_true, Bool.or_eq_true] at hall
      rcases List.mem_cons.mp hmem with h | h
      · cases h
        refine ⟨hall.1.2, ?_⟩
        intro hk
        rcases hall.1.1 with h1 | h1
        · have h2 : (bufferFields.contains k || tsFields.contains k) = false := by
            simpa using h1
          rw [hk] at h2
          cases h2
        · simpa using h1
      · exact ih hall.2 h

theorem pnormElems_mem {l : List JVal} {v : JVal}
    (hall : pnormElems l = true) (hmem : v ∈ l) : pnorm v = true := by
  induction l with
  | nil => cases hmem
  | cons x rest ih =>
    simp only [pnormElems, Bool.and_eq_true] at hall
    rcases List.mem_cons.mp hmem with h | h
    · cases h; exact hall.1
    · exact ih hall.2 h

/-- An already-normalized value is a fixed point of the recursive decoder. -/
theorem pnorm_decode_id : ∀ v, pnorm v = true → recursiveBufferDecode v = v := by
  intro v
  induction v using JVal.recMem with
  | hnull => intro _; simp [recursiveBufferDecode]
  | hbool b => intro _; simp [recursiveBufferDecode]
  | hnum n => intro _; simp [recursiveBufferDecode]
  | hstr s => intro _; simp [recursiveBufferDecode]
  | hbuf bs => intro _; simp [recursiveBufferDecode]
  | harr xs ih =>
    intro h
    simp only [pnorm] at h
    simp only [recursiveBufferDecode, decodeElems_eq_map, JVal.arr.injEq]
    have : ∀ x ∈ xs,
        (if x.isObjectLike then recursiveBufferDecode x else x) = x := by
      intro x hx
      have hx2 := ih x hx (pnormElems_mem h hx)
      by_cases hb : x.isObjectLike <;> simp [hb, hx2]
    calc xs.map (fun x => if x.isObjectLike then recursiveBufferDecode x else x)
        = xs.map id := List.map_congr_left this
      _ = xs := List.map_id xs
  | hobj fs ih =>
    intro h
    simp only [pnorm] at h
    simp only [recursiveBufferDecode, decodeFields_eq_map, JVal.obj.injEq]
    have : ∀ p ∈ fs, (fun p => (p.1, decodeEntry p.1 p.2)) p = id p := by
      intro p hp
      obtain ⟨hv, hks⟩ := pnormFields_mem h (by exact hp)
      have hdv := ih p hp hv
      simp only [id]
      have heq : decodeEntry p.1 p.2 = p.2 := by
        unfold decodeEntry
        have hb : (bufferFields.contains p.1 && p.2.isStr) = false := by
          by_cases hbf : bufferFields.contains p.1 = true
          · have hs := hks (by rw [hbf]; simp)
            rw [hs, Bool.and_false]
          · have hf : bufferFields.contains p.1 = false := by
              cases hfb : bufferFields.contains p.1
              · rfl
              · exact absurd hfb hbf
            rw [hf, Bool.false_and]
        rw [hb]
        simp only [Bool.false_eq_true, if_false]
        by_cases ho : p.2.isObjectLike <;> simp [ho, hdv]
      rw [heq]
    calc fs.map (fun p => (p.1, decodeEntry p.1 p.2))
        = fs.map id := List.map_congr_left this
      _ = fs := List.map_id fs

theorem jsLookup_mem {l : List (String × JVal)} {k : String} {v : JVal}
    (h : jsLookup l k = some v) : (k, v) ∈ l := by
  unfold jsLookup at h
  cases hf : l.find? (fun p => p.1 == k) with
  | none => rw [hf] at h; cases h
  | some p =>
    rw [hf] at h
    obtain ⟨k1, v1⟩ := p
    simp only [Option.map_some', Option.some.injEq] at h
    have hm := List.mem_of_find?_eq_some hf
    have hpk := List.find?_some hf
    have hk : k1 = k := by simpa using hpk
    subst hk
    subst h
    exact hm

theorem jsSet_lookup_self {l : List (String × JVal)} {k : String} {v : JVal}
    (h : jsLookup l k = some v) : jsSet l k v = l := by
  induction l with
  | nil => simp [jsLookup] at h
  | cons p rest ih =>
    obtain ⟨k1, v1⟩ := p
    by_cases hk : k1 = k
    · subst hk
      have hfind : ((k1, v1) :: rest).find? (fun p => p.1 == k1) = some (k1, v1) :=
        List.find?_cons_of_pos _ (by simp)
      unfold jsLookup at h
      rw [hfind] at h
      simp only [Option.map_some', Option.some.injEq] at h
      subst h
      simp [jsSet]
    · have hrest : jsLookup rest k = some v := by
        unfold jsLookup at h ⊢
        rw [List.find?_cons_of_neg _ (by simp [hk])] at h
        exact h
      simp [jsSet, hk, ih hrest]

theorem normTsField_id {k : String} {l : List (String × JVal)}
    (h : ∀ v, jsLookup l k = some v → v.isStr = false) :
    normTsField k l = l := by
  unfold normTsField
  cases hf : jsLookup l k with
  | none => rfl
  | some v =>
    cases v with
    | str s =>
      have hs := h _ hf
      simp [JVal.isStr] at hs
    | null => rfl
    | bool b => rfl
    | num n => rfl
    | buf bs => rfl
    | arr xs => rfl
    | obj fs => rfl

theorem normTsField_id_of_pnorm {k : String} (hk : tsFields.contains k = true)
    {fields : List (String × JVal)} (h : pnormFields fields = true) :
    normTsField k fields = fields := by
  apply normTsField_id
  intro v hv
  obtain ⟨_, hks⟩ := pnormFields_mem h (jsLookup_mem hv)
  exact hks (by rw [hk, Bool.or_true])

theorem reconstructMessage_id {v : JVal} (h : pnorm v = true)
    (hnn : v.isNull = false) : reconstructMessage v = some v := by
  cases v with
  | obj fields =>
    simp only [pnorm] at h
    have hts : normTsField "messageTimestamp" fields = fields :=
      normTsField_id_of_pnorm (by rfl) h
    show some (JVal.obj (decodeMsgField (normTsField "messageTimestamp" fields))) =
      some (JVal.obj fields)
    rw [hts]
    unfold decodeMsgField
    cases hm : jsLookup fields "message" with
    | none => rfl
    | some mv =>
      show some (JVal.obj (jsSet fields "message" (recursiveBufferDecode mv))) =
        some (JVal.obj fields)
      have hp := (pnormFields_mem h (jsLookup_mem hm)).1
      rw [pnorm_decode_id _ hp, jsSet_lookup_self hm]
  | null => simp [JVal.isNull] at hnn
  | bool b => rfl
  | num n => rfl
  | str s => rfl
  | buf bs => rfl
  | arr xs => rfl

theorem reconstructAll_eq_self {xs : List JVal}
    (h : ∀ x ∈ xs, reconstructMessage x = some x) :
    reconstructAll xs = some xs := by
  induction xs with
  | nil => rfl
  | cons m rest ih =>
    have hm := h m (by simp)
    have hr := ih (fun x hx => h x (by simp [hx]))
    simp only [reconstructAll, hm, hr]

theorem reconstructAll_isSome {xs : List JVal}
    (h : ∀ x ∈ xs, x.isNull = false) :
    (reconstructAll xs).isSome = true := by
  induction xs with
  | nil => rfl
  | cons m rest ih =>
    have hm0 := h m (by simp)
    have hm : (reconstructMessage m).isSome = true := by
      cases m with
      | null => simp [JVal.isNull] at hm0
      | bool b => rfl
      | num n => rfl
      | str s => rfl
      | buf bs => rfl
      | arr ys => rfl
      | obj fs => rfl
    have hrr := ih (fun x hx => h x (by simp [hx]))
    cases hmr : reconstructMessage m with
    | none => rw [hmr] at hm; simp at hm
    | some m2 =>
      cases hr : reconstructAll rest with
      | none => rw [hr] at hrr; simp at hrr
      | some r2 => simp [reconstructAll, hmr, hr]

theorem reconstructChat_id {fields : List (String × JVal)}
    (h : pnormFields fields = true) :
    reconstructChat (.obj fields) = .obj fields := by
  unfold reconstructChat
  simp only [jsSpread]
  rw [normTsField_id_of_pnorm (by rfl) h, normTsField_id_of_pnorm (by rfl) h]

theorem reconstructGroup_id {fields : List (String × JVal)}
    (h : pnormFields fields = true) :
    reconstructGroup (.obj fields) = .obj fields := by
  unfold reconstructGroup
  simp only [jsSpread]
  rw [normTsField_id_of_pnorm (by rfl) h]

theorem mapIfArray_id_of_obj (f : JVal → JVal) (payload : JVal)
    (hwf : (match payload with
            | .arr xs => xs.all (fun x => x.isObj)
            | _ => true) = true)
    (hn : pnorm payload = true)
    (hf : ∀ fs, pnormFields fs = true → f (.obj fs) = .obj fs) :
    mapIfArray f payload = payload := by
  cases payload with
  | arr xs =>
    simp only [mapIfArray, JVal.arr.injEq]
    simp only [pnorm] at hn
    simp only [List.all_eq_true] at hwf
    have : ∀ x ∈ xs, f x = id x := by
      intro x hx
      have hobj := hwf x hx
      have hpx := pnormElems_mem hn hx
      cases x with
      | obj fs =>
        simp only [id]
        exact hf fs (by simpa [pnorm] using hpx)
      | null => simp [JVal.isObj] at hobj
      | bool b => simp [JVal.isObj] at hobj
      | num n => simp [JVal.isObj] at hobj
      | str s => simp [JVal.isObj] at hobj
      | buf bs => simp [JVal.isObj] at hobj
      | arr ys => simp [JVal.isObj] at hobj
    calc xs.map f = xs.map id := List.map_congr_left this
      _ = xs := List.map_id xs
  | null => rfl
  | bool b => rfl
  | num n => rfl
  | str s => rfl
  | buf bs => rfl
  | obj fs => rfl

theorem parseMessageUpsert_id {payload : JVal}
    (hwf : (match jsGetField payload "messages" with
            | some m =>
              !jsTruthy m ||
                (match m with
                  | .arr xs => xs.all (fun x => !x.isNull)
                  | _ => false)
            | none => true) = true)
    (hn : pnorm payload = true) :
    parseMessageUpsert payload = some payload := by
  cases payload with
  | obj fields =>
    unfold parseMessageUpsert
    rw [show jsTruthy (JVal.obj fields) = true from rfl]
    simp only [Bool.not_true, Bool.false_eq_true, if_false]
    simp only [jsGetField] at hwf ⊢
    cases hg : jsLookup fields "messages" with
    | none => rfl
    | some msgs =>
      rw [hg] at hwf
      show upsertMsgs (JVal.obj fields) msgs = some (JVal.obj fields)
      unfold upsertMsgs
      by_cases hmt : jsTruthy msgs = true
      · rw [hmt]
        simp only [Bool.not_true, Bool.false_eq_true, if_false]
        simp only [pnorm] at hn
        have hpm := (pnormFields_mem hn (jsLookup_mem hg)).1
        cases msgs with
        | arr xs =>
          have hwf2 : (!jsTruthy (JVal.arr xs) ||
              xs.all (fun x => !x.isNull)) = true := hwf
          rw [hmt] at hwf2
          simp only [Bool.not_true, Bool.false_or] at hwf2
          have hall : ∀ x ∈ xs, x.isNull = false := by
            intro x hx
            have := (List.all_eq_true.mp hwf2) x hx
            simpa using this
          have hpe : pnormElems xs = true := by simpa [pnorm] using hpm
          have hxs : reconstructAll xs = some xs :=
            reconstructAll_eq_self (fun x hx =>
              reconstructMessage_id (pnormElems_mem hpe hx) (hall x hx))
          show (reconstructAll xs).map
              (fun ys => JVal.obj (jsSet (jsSpread (JVal.obj fields)) "messages"
                (JVal.arr ys))) = some (JVal.obj fields)
          rw [hxs]
          show some (JVal.obj (jsSet fields "messages" (JVal.arr xs))) =
            some (JVal.obj fields)
          rw [jsSet_lookup_self hg]
        | null => simp [jsTruthy] at hmt
        | bool b =>
          have hwf2 : (!jsTruthy (JVal.bool b) || false) = true := hwf
          rw [hmt] at hwf2
          simp at hwf2
        | num n =>
          have hwf2 : (!jsTruthy (JVal.num n) || false) = true := hwf
          rw [hmt] at hwf2
          simp at hwf2
        | str s =>
          have hwf2 : (!jsTruthy (JVal.str s) || false) = true := hwf
          rw [hmt] at hwf2
          simp at hwf2
        | buf bs =>
          have hwf2 : (!jsTruthy (JVal.buf bs) || false) = true := hwf
          rw [hmt] at hwf2
          simp at hwf2
        | obj fs =>
          have hwf2 : (!jsTruthy (JVal.obj fs) || false) = true := hwf
          rw [hmt] at hwf2
          simp at hwf2
      · have hmf : jsTruthy msgs = false := by
          cases hx : jsTruthy msgs
          · rfl
          · exact absurd hx hmt
        rw [hmf]
        simp
  | null => rfl
  | bool b => cases b <;> rfl
  | num n => by_cases hz : n = 0 <;> simp [parseMessageUpsert, jsTruthy, jsGetField, hz]
  | str s => by_cases hz : s = "" <;> simp [parseMessageUpsert, jsTruthy, jsGetField, hz]
  | buf bs => rfl
  | arr xs => rfl

/-- C3 counterexample: the source wraps Buffer.from(obj[key], "base64") in a
try/catch meant to ignore decode failures, but Node's base64 decoding never
throws for a string — invalid characters are ignored leniently — so the
catch is dead code and a recognized binary field holding a string that is
not valid base64 is NOT left as the original string: at this concrete input
the field is overwritten with the best-effort (here empty) buffer, refuting
the claim as stated. -/
theorem vex_c3_counterexample :
    decodeEntry "jpegThumbnail" (JVal.str "!!!") = JVal.buf [] ∧
    recursiveBufferDecode (JVal.obj [("jpegThumbnail", JVal.str "!!!")]) =
      JVal.obj [("jpegThumbnail", JVal.buf [])] ∧
    recursiveBufferDecode (JVal.obj [("jpegThumbnail", JVal.str "!!!")]) ≠
      JVal.obj [("jpegThumbnail", JVal.str "!!!")] := by
  refine ⟨rfl, rfl, ?_⟩
  intro h
  rw [show recursiveBufferDecode (JVal.obj [("jpegThumbnail", JVal.str "!!!")]) =
    JVal.obj [("jpegThumbnail", JVal.buf [])] from rfl] at h
  simp at h

/-- C3 (amended): for every event payload containing a recognized binary
field holding a string — in particular a string that is not valid base64 —
normalization replaces that field with the lenient best-effort base64 decode
(Node's Buffer.from never throws: characters outside the alphabet are
ignored, possibly yielding the empty buffer, so the source's catch is dead
code), normalizes the rest of the payload normally (every field of the
containing object goes through the same per-field rule), and raises no
exception to the caller (normalizing a well-shaped messages.upsert payload
around it returns normally). -/
theorem vex_c3_lenient_decode
    (fields : List (String × JVal)) (k : String) (s : String)
    (hmem : (k, JVal.str s) ∈ fields) (hk : k ∈ bufferFields) :
    decodeEntry k (JVal.str s) = JVal.buf (nodeBase64Decode s) ∧
    recursiveBufferDecode (JVal.obj fields) =
      JVal.obj (fields.map (fun p => (p.1, decodeEntry p.1 p.2))) ∧
    (k, JVal.buf (nodeBase64Decode s)) ∈
      fields.map (fun p => (p.1, decodeEntry p.1 p.2)) ∧
    (∀ (payload : JVal) (xs : List JVal),
      jsGetField payload "messages" = some (JVal.arr xs) →
      xs.all (fun x => !x.isNull) = true →
      (parse "messages.upsert" payload).isSome = true) := by
  have h1 : decodeEntry k (JVal.str s) = JVal.buf (nodeBase64Decode s) := by
    have hc : bufferFields.contains k = true := by simpa using hk
    simp [decodeEntry, decodeB64, hc, hk, JVal.isStr]
  refine ⟨h1, ?_, ?_, ?_⟩
  · simp only [recursiveBufferDecode, decodeFields_eq_map]
  · have h2 := List.mem_map_of_mem (fun p => (p.1, decodeEntry p.1 p.2)) hmem
    simpa [h1] using h2
  · intro payload xs hg hall
    cases payload with
    | obj pf =>
      show (parseMessageUpsert (JVal.obj pf)).isSome = true
      unfold parseMessageUpsert
      rw [show jsTruthy (JVal.obj pf) = true from rfl]
      simp only [Bool.not_true, Bool.false_eq_true, if_false]
      simp only [jsGetField]
      simp only [jsGetField] at hg
      rw [hg]
      show (upsertMsgs (JVal.obj pf) (JVal.arr xs)).isSome = true
      have hnn : ∀ x ∈ xs, x.isNull = false := by
        intro x hx
        have := (List.all_eq_true.mp hall) x hx
        simpa using this
      have hra := reconstructAll_isSome hnn
      show ((reconstructAll xs).map
        (fun ys => JVal.obj (jsSet (jsSpread (JVal.obj pf)) "messages"
          (JVal.arr ys)))).isSome = true
      obtain ⟨ys, hys⟩ := Option.isSome_iff_exists.mp hra
      rw [hys]
      rfl
    | null => cases hg
    | bool b => cases hg
    | num n => cases hg
    | str s1 => cases hg
    | buf bs => cases hg
    | arr zs => cases hg

/-- Witness for C3 (amended) at a concrete input: the recognized field
jpegThumbnail holding an invalid base64 string is replaced by the lenient
decode, here the empty buffer. -/
theorem vex_c3_witness :
    decodeEntry "jpegThumbnail" (JVal.str "!!!") = JVal.buf [] :=
  (vex_c3_lenient_decode
    [("jpegThumbnail", JVal.str "!!!"), ("caption", JVal.str "hi")]
    "jpegThumbnail" "!!!" (by simp) (by simp [bufferFields])).1

/-- C8: for every payload that is already normalized — all recognized
timestamp fields non-strings and all recognized binary fields non-strings
(already buffers), with the structural well-formedness `wfPayload` that the
claim presupposes of an event payload: a truthy messages property is an
array of non-null entries (a non-array makes the source's .map throw and a
null entry makes reconstructMessage's msg.messageTimestamp read throw, on
any payload whatsoever) and chat/group list entries are objects — applying
WebhookParser.parse to it again returns the payload unchanged. -/
theorem vex_c8_parse_idempotent (event : String) (payload : JVal)
    (hwf : wfPayload event payload = true) (hn : pnorm payload = true) :
    parse event payload = some payload := by
  unfold parse
  split
  · exact parseMessageUpsert_id hwf hn
  · rfl
  · rfl
  · rfl
  · exact congrArg some
      (mapIfArray_id_of_obj _ _ hwf hn (fun fs h => reconstructChat_id h))
  · exact congrArg some
      (mapIfArray_id_of_obj _ _ hwf hn (fun fs h => reconstructChat_id h))
  · exact congrArg some
      (mapIfArray_id_of_obj _ _ hwf hn (fun fs h => reconstructGroup_id h))
  · exact congrArg some
      (mapIfArray_id_of_obj _ _ hwf hn (fun fs h => reconstructGroup_id h))
  · rfl
  · rfl

theorem socketEventFilter_suppress (cfg : String) (p : BaileysEventPayload)
    (hsess : p.sessionUUID = cfg)
    (hclose : jsGetField p.data "connection" = some (JVal.str "close"))
    (h1 : jsGetField p.data "reason" ≠ some (JVal.str "logged_out"))
    (h2 : jsGetField p.data "reason" ≠ some (JVal.str "max_reconnect_attempts")) :
    socketEventFilter cfg "connection.update" p = none := by
  unfold socketEventFilter
  simp only [hsess, hclose, if_true, eq_self_iff_true]

theorem socketEventFilter_forward (cfg : String) (p : BaileysEventPayload)
    (hsess : p.sessionUUID = cfg)
    (hclose : jsGetField p.data "connection" = some (JVal.str "close"))
    (hr : jsGetField p.data "reason" = some (JVal.str "logged_out") ∨
      jsGetField p.data "reason" = some (JVal.str "max_reconnect_attempts")) :
    socketEventFilter cfg "connection.update" p =
      some ("connection.update", p.data) := by
  rcases hr with h | h <;> simp [socketEventFilter, hsess, hclose, h]

theorem injectEvent_close (st : ConnectionStatus) (d : JVal)
    (hclose : jsGetField d "connection" = some (JVal.str "close")) :
    injectEvent st "connection.update" d =
      (ConnectionStatus.closed, ("connection.update", d)) := by
  unfold injectEvent
  have hp : parse "connection.update" d = some d := rfl
  rw [hp]
  simp only [hclose, if_true, eq_self_iff_true]

/-- C4: while the push transport is active, a connection.update for the
subscribed session carrying connection close with a reason other than
logged_out and max_reconnect_attempts is suppressed — nothing is emitted to
consumers and the visible connection status is unchanged — whereas a close
with reason logged_out or max_reconnect_attempts is forwarded to consumers
as a close event (the close payload itself), moving the visible status to
closed. -/
theorem vex_c4_close_filter (cfg : String) (st : ConnectionStatus)
    (p : BaileysEventPayload) (hsess : p.sessionUUID = cfg)
    (hclose : jsGetField p.data "connection" = some (JVal.str "close")) :
    (jsGetField p.data "reason" ≠ some (JVal.str "logged_out") →
      jsGetField p.data "reason" ≠ some (JVal.str "max_reconnect_attempts") →
      processSocketEvent cfg st "connection.update" p = (st, [])) ∧
    (jsGetField p.data "reason" = some (JVal.str "logged_out") ∨
      jsGetField p.data "reason" = some (JVal.str "max_reconnect_attempts") →
      processSocketEvent cfg st "connection.update" p =
        (ConnectionStatus.closed, [("connection.update", p.data)])) := by
  constructor
  · intro h1 h2
    unfold processSocketEvent
    rw [socketEventFilter_suppress cfg p hsess hclose h1 h2]
  · intro hr
    unfold processSocketEvent
    rw [socketEventFilter_forward cfg p hsess hclose hr]
    show ((injectEvent st "connection.update" p.data).1,
      [(injectEvent st "connection.update" p.data).2]) =
      (ConnectionStatus.closed, [("connection.update", p.data)])
    rw [injectEvent_close st p.data hclose]

/-- Witness for C4 at concrete inputs: a close with reason transport close is
fully suppressed, and a close with reason max_reconnect_attempts is forwarded
and closes the visible status. -/
theorem vex_c4_witness :
    processSocketEvent "s" ConnectionStatus.opened "connection.update"
      ⟨"s", JVal.obj [("connection", JVal.str "close"),
        ("reason", JVal.str "transport close")]⟩ =
      (ConnectionStatus.opened, []) ∧
    processSocketEvent "s" ConnectionStatus.opened "connection.update"
      ⟨"s", JVal.obj [("connection", JVal.str "close"),
        ("reason", JVal.str "max_reconnect_attempts")]⟩ =
      (ConnectionStatus.closed,
        [("connection.update", JVal.obj [("connection", JVal.str "close"),
          ("reason", JVal.str "max_reconnect_attempts")])]) :=
  ⟨(vex_c4_close_filter "s" ConnectionStatus.opened
      ⟨"s", JVal.obj [("connection", JVal.str "close"),
        ("reason", JVal.str "transport close")]⟩ rfl rfl).1
      (by simp [jsGetField, jsLookup]) (by simp [jsGetField, jsLookup]),
    (vex_c4_close_filter "s" ConnectionStatus.opened
      ⟨"s", JVal.obj [("connection", JVal.str "close"),
        ("reason", JVal.str "max_reconnect_attempts")]⟩ rfl rfl).2
      (Or.inr (by simp [jsGetField, jsLookup]))⟩

/-- C1 counterexample: with the push transport connected and the transport
attempt failing (here: the send-timeout rejection), sendMessageFast returns
that failed socket attempt itself — it performs no HTTP-path send, refuting
the claimed fallback to HTTP on transport failure. -/
theorem vex_c1_counterexample :
    sendMessageFast true none defaultMessageTimeout
      (fun _ => Except.error "Message send timeout after 300000ms")
      (Except.ok ⟨"m1", "PENDING"⟩) =
      FastSendResult.viaSocket
        (Except.error "Message send timeout after 300000ms") ∧
    (sendMessageFast true none defaultMessageTimeout
      (fun _ => Except.error "Message send timeout after 300000ms")
      (Except.ok ⟨"m1", "PENDING"⟩)).isHttp = false :=
  ⟨rfl, rfl⟩

/-- C1 (amended): while the push transport is connected the send is attempted
directly over it with the dedicated timeout (timeout ?? 300000 by default),
and the outcome of that attempt — success or failure — is returned to the
caller; the HTTP path is used exactly when the transport is not connected;
no call ever enqueues into the outbox. -/
theorem vex_c1_fast_send_paths (timeout? : Option Nat)
    (socketAttempt : Nat → Except String SocketSendResponse)
    (httpAttempt : Except String HttpSendResponse) (connected : Bool) :
    sendMessageFast true timeout? defaultMessageTimeout socketAttempt
        httpAttempt =
      FastSendResult.viaSocket (socketAttempt (timeout?.getD 300000)) ∧
    sendMessageFast false timeout? defaultMessageTimeout socketAttempt
        httpAttempt = FastSendResult.viaHttp httpAttempt ∧
    (sendMessageFast connected timeout? defaultMessageTimeout socketAttempt
        httpAttempt).isEnqueued = false := by
  refine ⟨rfl, rfl, ?_⟩
  cases connected <;> rfl

/-- C7: the retry delay before attempt n (n ≥ 1) equals
min(baseDelay * 2^(n-1), 16000) with no jitter; the request is not retried on
connection-refused nor on HTTP 400/401/403/422; it is retried on a
network-level error (as classified by the library predicate the source
calls) and on any HTTP status ≥ 500; and the registration carries the
configured maximum number of retries (default 5). -/
theorem vex_c7_retry_policy (maxRetries? : Option Nat) (base n : Nat)
    (e : AxiosErrorModel) (hn : 1 ≤ n) :
    (setupRetry (httpMaxRetries maxRetries?) base).delayOf n =
      min (base * 2 ^ (n - 1)) 16000 ∧
    (setupRetry (httpMaxRetries maxRetries?) base).retries =
      maxRetries?.getD 5 ∧
    (e.code = some "ECONNREFUSED" →
      (setupRetry (httpMaxRetries maxRetries?) base).condOf e = false) ∧
    (e.status = some 400 ∨ e.status = some 401 ∨ e.status = some 403 ∨
        e.status = some 422 →
      (setupRetry (httpMaxRetries maxRetries?) base).condOf e = false) ∧
    (e.code ≠ some "ECONNREFUSED" → e.networkVerdict = true →
      e.status ≠ some 400 → e.status ≠ some 401 → e.status ≠ some 403 →
      e.status ≠ some 422 →
      (setupRetry (httpMaxRetries maxRetries?) base).condOf e = true) ∧
    (∀ s : Nat, e.code ≠ some "ECONNREFUSED" → e.status = some s → 500 ≤ s →
      (setupRetry (httpMaxRetries maxRetries?) base).condOf e = true) := by
  refine ⟨rfl, rfl, ?_, ?_, ?_, ?_⟩
  · intro h
    simp [setupRetry, retryCondition, h]
  · intro h
    by_cases hc : e.code = some "ECONNREFUSED"
    · simp [setupRetry, retryCondition, hc]
    · rcases h with h | h | h | h <;> simp [setupRetry, retryCondition, hc, h]
  · intro hc hnet h400 h401 h403 h422
    simp [setupRetry, retryCondition, hc, hnet, h400, h401, h403, h422]
  · intro s hc hs h500
    have h1 : s ≠ 400 := by omega
    have h2 : s ≠ 401 := by omega
    have h3 : s ≠ 403 := by omega
    have h4 : s ≠ 422 := by omega
    simp [setupRetry, retryCondition, hc, hs, h1, h2, h3, h4, h500]

/-- Witness for C7 at concrete inputs: with the default five retries and base
delay 1000 the delay before attempt 3 is 4000 ms, and a concrete
connection-refused error is not retried. -/
theorem vex_c7_witness :
    (setupRetry (httpMaxRetries none) 1000).delayOf 3 = 4000 ∧
    (setupRetry (httpMaxRetries none) 1000).condOf
      ⟨some "ECONNREFUSED", none, true⟩ = false := by
  have h := vex_c7_retry_policy none 1000 3
    ⟨some "ECONNREFUSED", none, true⟩ (by decide)
  exact ⟨by rw [h.1]; decide, h.2.2.1 rfl⟩

theorem notifyRun_eq_traceEdges (start : Bool) (outs : List ReqOutcome) :
    (notifyRun start outs).2 = traceEdges (notifyTrace start outs) := by
  induction outs generalizing start with
  | nil => rfl
  | cons o rest ih =>
    obtain ⟨t, ht⟩ : ∃ t,
        notifyTrace (notifyStep start o).1 rest = (notifyStep start o).1 :: t := by
      cases rest <;> exact ⟨_, rfl⟩
    show (notifyStep start o).2.toList ++
        (notifyRun (notifyStep start o).1 rest).2 =
      traceEdges (start :: notifyTrace (notifyStep start o).1 rest)
    rw [ht]
    show (notifyStep start o).2.toList ++
        (notifyRun (notifyStep start o).1 rest).2 =
      (if start && !(notifyStep start o).1 then [TransitionNotice.wentOffline]
        else if !start && (notifyStep start o).1 then
          [TransitionNotice.wentOnline]
        else []) ++ traceEdges ((notifyStep start o).1 :: t)
    rw [← ht, ih]
    congr 1
    cases o <;> cases start <;> rfl

/-- C2 (spec-modelled): the HttpClient carrying the online/offline callbacks
is absent from src, so the tracking is modelled from the spec.  Over every
sequence of request outcomes, the notifications fired are exactly the edges
of the induced online-flag trace — one offline notification per
online→offline flip and one online notification per offline→online flip,
never more (edge-triggered, not per-failure).  Additionally: a retryable
failure or connection-refused while online fires wentOffline, a success
while offline fires wentOnline, repeated failures while already offline and
successes while already online fire nothing. -/
theorem vex_c2_offline_online_edge_triggered (start : Bool)
    (outs : List ReqOutcome) :
    (notifyRun start outs).2 = traceEdges (notifyTrace start outs) ∧
    notifyStep true .retryableFailure = (false, some .wentOffline) ∧
    notifyStep true .connRefused = (false, some .wentOffline) ∧
    notifyStep false .success = (true, some .wentOnline) ∧
    notifyStep false .retryableFailure = (false, none) ∧
    notifyStep false .connRefused = (false, none) ∧
    notifyStep true .success = (true, none) :=
  ⟨notifyRun_eq_traceEdges start outs, rfl, rfl, rfl, rfl, rfl, rfl⟩

/-- Witness for C8 at a concrete already-normalized messages.upsert payload
(timestamp already a number, thumbnail already a buffer). -/
theorem vex_c8_witness :
    parse "messages.upsert"
      (JVal.obj [("messages", JVal.arr [JVal.obj
        [("messageTimestamp", JVal.num 5),
          ("message", JVal.obj [("jpegThumbnail", JVal.buf [72, 105]),
            ("caption", JVal.str "hi")])]])]) =
    some (JVal.obj [("messages", JVal.arr [JVal.obj
        [("messageTimestamp", JVal.num 5),
          ("message", JVal.obj [("jpegThumbnail", JVal.buf [72, 105]),
            ("caption", JVal.str "hi")])]])]) :=
  vex_c8_parse_idempotent _ _ (by rfl) (by rfl)

theorem calculateDelay_eq (cfg : QueueConfig) (n : Nat) (r : ℚ) :
    calculateDelay cfg n r =
      ⌊(min ((cfg.baseDelay : ℚ) * 2 ^ (n - 1)) (cfg.maxDelay : ℚ)) *
        (1 + r / 5)⌋ := by
  unfold calculateDelay
  show ⌊(min ((cfg.baseDelay : ℚ) * 2 ^ (n - 1)) (cfg.maxDelay : ℚ)) +
      (min ((cfg.baseDelay : ℚ) * 2 ^ (n - 1)) (cfg.maxDelay : ℚ)) *
        (2 / 10) * r⌋ = _
  congr 1
  ring

theorem processLoop_fail (cfg : QueueConfig)
    (sendRes : QueuedMessage → Except String Unit) (now : Int) (r : ℚ)
    (A : QueuedMessage) (rest : List QueuedMessage) (e : String)
    (hA : A.attempts < cfg.maxAttempts)
    (hfail : sendRes
      { A with attempts := A.attempts + 1, lastAttempt := some now } =
      Except.error e) :
    processLoop cfg sendRes now r (A :: rest) =
      (rest ++
        [{ A with attempts := A.attempts + 1, lastAttempt := some now, lastError := some e }],
        [], some (calculateDelay cfg (A.attempts + 1) r)) := by
  have ha : ¬ (cfg.maxAttempts ≤ A.attempts) := not_le.mpr hA
  simp [processLoop, ha, hfail]

theorem processLoop_head_ok (cfg : QueueConfig)
    (sendRes : QueuedMessage → Except String Unit) (now : Int) (r : ℚ)
    (B : QueuedMessage) (q2 : List QueuedMessage)
    (hB : B.attempts < cfg.maxAttempts)
    (hok : sendRes
      { B with attempts := B.attempts + 1, lastAttempt := some now } =
      Except.ok ()) :
    (processLoop cfg sendRes now r (B :: q2)).2.1.head? =
      some (QueueEvent.sentEv
        { B with attempts := B.attempts + 1, lastAttempt := some now }) := by
  have hb : ¬ (cfg.maxAttempts ≤ B.attempts) := not_le.mpr hB
  simp [processLoop, hb, hok]

/-- C5: a failed delivery attempt for the head operation (raising its
attempt count to n = attempts+1) records the error on the operation, moves
it to the tail of its session's queue, and reschedules processing after
calculateDelay; at the defaults (baseDelay 5000, maxDelay 60000) that delay
is min(5000 * 2^(n-1), 60000) * (1 + r/5) rounded down, a jitter of at most
20% for a random draw r in [0,1); and with operations A then B in order,
when A fails, B stands at the head of the requeued queue, so the rescheduled
drain that delivers B emits B's sent notification first — before A's
retry. -/
theorem vex_c5_outbox_retry (cfg : QueueConfig)
    (sendRes sendRes2 : QueuedMessage → Except String Unit)
    (now now2 : Int) (r r2 : ℚ) (A B : QueuedMessage) (e : String) (n : Nat)
    (hA : A.attempts < cfg.maxAttempts)
    (hfail : sendRes
      { A with attempts := A.attempts + 1, lastAttempt := some now } =
      Except.error e)
    (hn : 1 ≤ n) (hr0 : 0 ≤ r) (hr1 : r < 1) :
    processLoop cfg sendRes now r (A :: [B]) =
      ([B,
        { A with attempts := A.attempts + 1, lastAttempt := some now, lastError := some e }],
        [], some (calculateDelay cfg (A.attempts + 1) r)) ∧
    calculateDelay defaultQueueConfig n r =
      ⌊(min ((5000 : ℚ) * 2 ^ (n - 1)) 60000) * (1 + r / 5)⌋ ∧
    (B.attempts < cfg.maxAttempts →
      sendRes2 { B with attempts := B.attempts + 1, lastAttempt := some now2 } =
        Except.ok () →
      (processLoop cfg sendRes2 now2 r2
        [B,
          { A with attempts := A.attempts + 1, lastAttempt := some now, lastError := some e }]).2.1.head? =
        some (QueueEvent.sentEv
          { B with attempts := B.attempts + 1, lastAttempt := some now2 })) := by
  refine ⟨?_, ?_, ?_⟩
  · simpa using processLoop_fail cfg sendRes now r A [B] e hA hfail
  · rw [calculateDelay_eq]
    norm_num [defaultQueueConfig, mkQueueConfig, jsNumOr]
  · intro hB hok
    exact processLoop_head_ok cfg sendRes2 now2 r2 B _ hB hok

/-- Witness for C5 at concrete inputs: with attempt count 1 and draw 1/2 the
delay is 5500 ms, and the failed head operation is requeued behind B with
that reschedule delay. -/
theorem vex_c5_witness :
    calculateDelay defaultQueueConfig 1 (1 / 2 : ℚ) = 5500 ∧
    (processLoop defaultQueueConfig
      (fun m => if m.id = "a" then Except.error "boom" else Except.ok ()) 5
      (1 / 2 : ℚ)
      [⟨"a", "s", "j", JVal.null, none, 0, 0, none, none⟩,
        ⟨"b", "s", "j", JVal.null, none, 0, 0, none, none⟩]).2.2 =
      some 5500 := by
  have h := vex_c5_outbox_retry defaultQueueConfig
    (fun m => if m.id = "a" then Except.error "boom" else Except.ok ())
    (fun _ => Except.ok ()) 5 6 (1 / 2 : ℚ) 0
    ⟨"a", "s", "j", JVal.null, none, 0, 0, none, none⟩
    ⟨"b", "s", "j", JVal.null, none, 0, 0, none, none⟩
    "boom" 1 (by decide) rfl (by decide) (by norm_num) (by norm_num)
  have hd : calculateDelay defaultQueueConfig 1 (1 / 2 : ℚ) = 5500 := by
    rw [h.2.1]
    norm_num [min_def]
  refine ⟨hd, ?_⟩
  rw [h.1]
  show some (calculateDelay defaultQueueConfig 1 (1 / 2 : ℚ)) = some 5500
  rw [hd]

/-- C6: enqueueing into a session queue already holding maxQueueSize
operations first evicts the oldest with a message:expired notification and
then appends the new operation at the tail, leaving the length at
maxQueueSize; more generally a queue within capacity stays within capacity
across enqueue. -/
theorem vex_c6_capacity_eviction (cfg : QueueConfig) (old : QueuedMessage)
    (rest : List QueuedMessage) (newId sessionId jid : String)
    (message : JVal) (options : Option JVal) (now : Int) (online : Bool)
    (hlen : (old :: rest).length = cfg.maxQueueSize) :
    enqueue cfg (old :: rest) newId sessionId jid message options now online =
      (rest ++ [⟨newId, sessionId, jid, message, options, now, 0, none, none⟩],
        [QueueEvent.expiredEv old,
          QueueEvent.queuedEv
            ⟨newId, sessionId, jid, message, options, now, 0, none, none⟩],
        online) ∧
    (enqueue cfg (old :: rest) newId sessionId jid message options now
        online).1.length = cfg.maxQueueSize ∧
    (∀ q : List QueuedMessage, q.length ≤ cfg.maxQueueSize →
      1 ≤ cfg.maxQueueSize →
      (enqueue cfg q newId sessionId jid message options now online).1.length ≤
        cfg.maxQueueSize) := by
  have hcap : cfg.maxQueueSize ≤ (old :: rest).length := le_of_eq hlen.symm
  have h1 : enqueue cfg (old :: rest) newId sessionId jid message options now
      online =
      (rest ++ [⟨newId, sessionId, jid, message, options, now, 0, none, none⟩],
        [QueueEvent.expiredEv old,
          QueueEvent.queuedEv
            ⟨newId, sessionId, jid, message, options, now, 0, none, none⟩],
        online) := by
    have hcap2 : cfg.maxQueueSize ≤ rest.length + 1 := by simpa using hcap
    simp [enqueue, hcap2]
  refine ⟨h1, ?_, ?_⟩
  · rw [h1]
    simp at hlen ⊢
    omega
  · intro q hq hone
    cases q with
    | nil => simp [enqueue]; omega
    | cons h t =>
      by_cases hc : cfg.maxQueueSize ≤ t.length + 1
      · simp [enqueue, hc]
        simp at hq
        omega
      · simp [enqueue, hc]
        omega

/-- Witness for C6 at maxQueueSize = 2: the third enqueue evicts m1 with an
expired notification and appends m3. -/
theorem vex_c6_witness :
    enqueue (mkQueueConfig none none none none none (some 2))
      [⟨"m1", "s", "j", JVal.null, none, 0, 0, none, none⟩,
        ⟨"m2", "s", "j", JVal.null, none, 1, 0, none, none⟩]
      "m3" "s" "j" JVal.null none 2 true =
      ([⟨"m2", "s", "j", JVal.null, none, 1, 0, none, none⟩,
        ⟨"m3", "s", "j", JVal.null, none, 2, 0, none, none⟩],
        [QueueEvent.expiredEv ⟨"m1", "s", "j", JVal.null, none, 0, 0, none, none⟩,
          QueueEvent.queuedEv ⟨"m3", "s", "j", JVal.null, none, 2, 0, none, none⟩],
        true) :=
  (vex_c6_capacity_eviction (mkQueueConfig none none none none none (some 2))
    ⟨"m1", "s", "j", JVal.null, none, 0, 0, none, none⟩
    [⟨"m2", "s", "j", JVal.null, none, 1, 0, none, none⟩]
    "m3" "s" "j" JVal.null none 2 true (by decide)).1

/-- C10: destroying the outbox cancels the persistence interval timer and
every per-session processing timer, and performs one final write of all
non-empty queues regardless of the dirty flag — and any non-empty,
non-expired queue present at destroy time is recovered by loadFromDisk after
a restart. -/
theorem vex_c10_destroy_final_save (st : MQState) :
    (destroyQueue st true).1.persistTimerSet = false ∧
    (destroyQueue st true).1.processingTimers = [] ∧
    (destroyQueue st true).2.1 = some (saveData st.queues) ∧
    (∀ b : Bool, (destroyQueue { st with isDirty := b } true).2.1 =
      some (saveData st.queues)) ∧
    (∀ (cfg : QueueConfig) (now : Int) (sid : String)
        (q : List QueuedMessage), (sid, q) ∈ st.queues → q ≠ [] →
      (∀ m ∈ q, now - m.createdAt ≤ (cfg.maxAge : Int)) →
      (sid, q) ∈ loadFromDisk cfg now (saveData st.queues)) := by
  refine ⟨rfl, rfl, rfl, fun b => rfl, ?_⟩
  intro cfg now sid q hmem hne hfresh
  have hsave : (sid, q) ∈ saveData st.queues := by
    unfold saveData
    refine List.mem_filter.mpr ⟨hmem, ?_⟩
    simpa using hne
  unfold loadFromDisk
  refine List.mem_filter.mpr ⟨?_, by simpa using hne⟩
  have himg := List.mem_map_of_mem
    (fun p : String × List QueuedMessage =>
      (p.1, p.2.filter (fun m => !decide ((cfg.maxAge : Int) < now - m.createdAt))))
    hsave
  have hfq : q.filter (fun m => !decide ((cfg.maxAge : Int) < now - m.createdAt)) = q := by
    refine List.filter_eq_self.mpr ?_
    intro m hm
    simp [not_lt.mpr (hfresh m hm)]
  simpa [hfq] using himg

/-- Witness for C10 at a concrete state: the written document holds exactly
the non-empty queue, and its operation survives a reload. -/
theorem vex_c10_witness :
    (destroyQueue
      ⟨[("s", [⟨"q1", "s", "j", JVal.null, none, 0, 0, none, none⟩]), ("t", [])],
        true, ["s"], true, false⟩ true).2.1 =
      some [("s", [⟨"q1", "s", "j", JVal.null, none, 0, 0, none, none⟩])] ∧
    ("s", [(⟨"q1", "s", "j", JVal.null, none, 0, 0, none, none⟩ : QueuedMessage)]) ∈
      loadFromDisk defaultQueueConfig 1000
        (saveData [("s", [⟨"q1", "s", "j", JVal.null, none, 0, 0, none, none⟩]), ("t", [])]) := by
  have h := vex_c10_destroy_final_save
    ⟨[("s", [⟨"q1", "s", "j", JVal.null, none, 0, 0, none, none⟩]), ("t", [])],
      true, ["s"], true, false⟩
  refine ⟨?_, ?_⟩
  · rw [h.2.2.1]
    rfl
  · exact h.2.2.2.2 defaultQueueConfig 1000 "s"
      [⟨"q1", "s", "j", JVal.null, none, 0, 0, none, none⟩]
      (by simp) (by simp) (by intro m hm; simp at hm; rw [hm]; decide)

theorem nodup_filter_map {α β : Type} [DecidableEq β] (l : List α) (f : α → β)
    (g : α → Bool) (h : (l.map f).Nodup) : ((l.filter g).map f).Nodup :=
  h.sublist (List.Sublist.map f (List.filter_sublist l))

theorem length_le_one_of_map_const {α β : Type} {l : List α} {f : α → β}
    {c : β} (hn : (l.map f).Nodup) (hc : ∀ x ∈ l, f x = c) : l.length ≤ 1 := by
  cases l with
  | nil => simp
  | cons a t =>
    cases t with
    | nil => simp
    | cons b t2 =>
      exfalso
      simp only [List.map_cons, List.nodup_cons, List.mem_cons, List.mem_map] at hn
      have ha := hc a (by simp)
      have hb := hc b (by simp)
      exact hn.1 (Or.inl (by rw [ha, hb]))

theorem good_no_handle (st : TimerState) (d : Duty) (h : goodTimers st)
    (hH : st.handleOf d = none) : ∀ e ∈ st.pending, e.1 ≠ d := by
  intro e he hd
  have h2 := h.2.1 e he
  rw [hd, hH] at h2
  cases h2

theorem good_cancel_of_handle (st : TimerState) (d : Duty) (id : Nat)
    (h : goodTimers st) (hH : st.handleOf d = some id) (st' : TimerState)
    (hpend : st'.pending = st.pending.filter (fun e => !decide (e.2 = id)))
    (hfresh : st'.fresh = st.fresh)
    (hhandle : ∀ d2 : Duty, d2 ≠ d → st'.handleOf d2 = st.handleOf d2) :
    goodTimers st' ∧ (∀ e ∈ st'.pending, e.1 ≠ d) := by
  obtain ⟨hb, hh, hn⟩ := h
  have hmain : ∀ e ∈ st'.pending, e ∈ st.pending ∧ e.2 ≠ id ∧ e.1 ≠ d := by
    intro e he
    rw [hpend] at he
    have hmem := List.mem_of_mem_filter he
    have hne : ¬ (e.2 = id) := by
      have h4 := (List.mem_filter.mp he).2
      simpa using h4
    refine ⟨hmem, hne, ?_⟩
    intro hdh
    have h2 := hh e hmem
    rw [hdh, hH] at h2
    exact hne (by injection h2 with h5; exact h5.symm)
  refine ⟨⟨?_, ?_, ?_⟩, fun e he => (hmain e he).2.2⟩
  · intro e he
    rw [hfresh]
    exact hb e (hmain e he).1
  · intro e he
    obtain ⟨hmem, hne, hdh⟩ := hmain e he
    rw [hhandle e.1 hdh]
    exact hh e hmem
  · rw [hpend]
    exact nodup_filter_map _ _ _ hn

theorem good_insert (st : TimerState) (d : Duty) (h : goodTimers st)
    (hno : ∀ e ∈ st.pending, e.1 ≠ d) (st' : TimerState)
    (hpend : st'.pending = (d, st.fresh) :: st.pending)
    (hfresh : st'.fresh = st.fresh + 1)
    (hhd : st'.handleOf d = some st.fresh)
    (hhandle : ∀ d2 : Duty, d2 ≠ d → st'.handleOf d2 = st.handleOf d2) :
    goodTimers st' := by
  obtain ⟨hb, hh, hn⟩ := h
  refine ⟨?_, ?_, ?_⟩
  · intro e he
    rw [hpend] at he
    rw [hfresh]
    rcases List.mem_cons.mp he with h1 | h1
    · rw [h1]
      omega
    · have := hb e h1
      omega
  · intro e he
    rw [hpend] at he
    rcases List.mem_cons.mp he with h1 | h1
    · rw [h1]
      simpa using hhd
    · have hd2 := hno e h1
      rw [hhandle e.1 hd2]
      exact hh e h1
  · rw [hpend]
    simp only [List.map_cons, List.nodup_cons]
    refine ⟨?_, hn⟩
    intro hmem
    obtain ⟨e, he, heq⟩ := List.mem_map.mp hmem
    have := hb e he
    omega

theorem good_stopHealth (st : TimerState) (h : goodTimers st) :
    goodTimers (stopHealthCheck st) ∧
      (∀ e ∈ (stopHealthCheck st).pending, e.1 ≠ Duty.health) := by
  cases hH : st.healthHandle with
  | none =>
    have hst : stopHealthCheck st = st := by
      unfold stopHealthCheck
      rw [hH]
    rw [hst]
    exact ⟨h, good_no_handle st Duty.health h hH⟩
  | some id =>
    have hst : stopHealthCheck st =
        { cancelTimer st id with healthHandle := none } := by
      unfold stopHealthCheck
      rw [hH]
    rw [hst]
    exact good_cancel_of_handle st Duty.health id h hH _ rfl rfl
      (fun d2 hd2 => by cases d2 <;> first | rfl | exact absurd rfl hd2)

theorem good_stopPoll (st : TimerState) (h : goodTimers st) :
    goodTimers (stopPolling st) ∧
      (∀ e ∈ (stopPolling st).pending, e.1 ≠ Duty.poll) := by
  cases hH : st.pollHandle with
  | none =>
    have hst : stopPolling st = st := by
      unfold stopPolling
      rw [hH]
    rw [hst]
    exact ⟨h, good_no_handle st Duty.poll h hH⟩
  | some id =>
    have hst : stopPolling st =
        { cancelTimer st id with pollHandle := none } := by
      unfold stopPolling
      rw [hH]
    rw [hst]
    exact good_cancel_of_handle st Duty.poll id h hH _ rfl rfl
      (fun d2 hd2 => by cases d2 <;> first | rfl | exact absurd rfl hd2)

theorem good_clearReconnect (st : TimerState) (h : goodTimers st) :
    goodTimers (clearReconnectTimer st) ∧
      (∀ e ∈ (clearReconnectTimer st).pending, e.1 ≠ Duty.reconnect) := by
  cases hH : st.reconnectHandle with
  | none =>
    have hst : clearReconnectTimer st = st := by
      unfold clearReconnectTimer
      rw [hH]
    rw [hst]
    exact ⟨h, good_no_handle st Duty.reconnect h hH⟩
  | some id =>
    have hst : clearReconnectTimer st =
        { cancelTimer st id with reconnectHandle := none } := by
      unfold clearReconnectTimer
      rw [hH]
    rw [hst]
    exact good_cancel_of_handle st Duty.reconnect id h hH _ rfl rfl
      (fun d2 hd2 => by cases d2 <;> first | rfl | exact absurd rfl hd2)

theorem good_fireReconnect (st : TimerState) (h : goodTimers st) :
    goodTimers (fireReconnect st) ∧
      (∀ e ∈ (fireReconnect st).pending, e.1 ≠ Duty.reconnect) := by
  cases hH : st.reconnectHandle with
  | none =>
    have hst : fireReconnect st = st := by
      unfold fireReconnect
      rw [hH]
    rw [hst]
    exact ⟨h, good_no_handle st Duty.reconnect h hH⟩
  | some id =>
    have hst : fireReconnect st = cancelTimer st id := by
      unfold fireReconnect
      rw [hH]
    rw [hst]
    refine good_cancel_of_handle st Duty.reconnect id h hH _ rfl rfl ?_
    intro d2 hd2
    cases d2 <;> rfl

theorem good_startHealth (i : Int) (st : TimerState) (h : goodTimers st) :
    goodTimers (startHealthCheck i st) := by
  unfold startHealthCheck
  split
  · exact h
  · obtain ⟨h1, hno⟩ := good_stopHealth st h
    exact good_insert (stopHealthCheck st) Duty.health h1 hno _ rfl rfl rfl
      (fun d2 hd2 => by cases d2 <;> first | rfl | exact absurd rfl hd2)

theorem good_startPoll (i : Int) (st : TimerState) (h : goodTimers st) :
    goodTimers (startPolling i st) := by
  unfold startPolling
  split
  · exact h
  · obtain ⟨h1, hno⟩ := good_stopPoll st h
    exact good_insert (stopPolling st) Duty.poll h1 hno _ rfl rfl rfl
      (fun d2 hd2 => by cases d2 <;> first | rfl | exact absurd rfl hd2)

theorem good_schedReconnect (en cr : Bool) (st : TimerState)
    (h : goodTimers st) : goodTimers (scheduleReconnect en cr st) := by
  unfold scheduleReconnect
  split
  · exact h
  · cases hH : st.reconnectHandle with
    | none =>
      have hno := good_no_handle st Duty.reconnect h hH
      exact good_insert st Duty.reconnect h hno _ rfl rfl rfl
        (fun d2 hd2 => by cases d2 <;> first | rfl | exact absurd rfl hd2)
    | some id =>
      obtain ⟨h1, hno⟩ := good_cancel_of_handle st Duty.reconnect id h hH
        (cancelTimer st id) rfl rfl (fun d2 hd2 => by cases d2 <;> rfl)
      exact good_insert (cancelTimer st id) Duty.reconnect h1 hno _ rfl rfl rfl
        (fun d2 hd2 => by cases d2 <;> first | rfl | exact absurd rfl hd2)

theorem good_clientStep (st : TimerState) (op : ClientOp)
    (h : goodTimers st) : goodTimers (clientStep st op) := by
  cases op with
  | startHealth i => exact good_startHealth i st h
  | stopHealth => exact (good_stopHealth st h).1
  | startPoll i => exact good_startPoll i st h
  | stopPoll => exact (good_stopPoll st h).1
  | schedReconnect e c => exact good_schedReconnect e c st h
  | fireReconnectOp => exact (good_fireReconnect st h).1
  | forceReconnectOp => exact (good_clearReconnect st h).1
  | logoutOp =>
    exact (good_stopPoll _ (good_stopHealth _ (good_clearReconnect st h).1).1).1
  | socketModeSwitchOp =>
    exact (good_stopHealth _ (good_stopPoll st h).1).1
  | destroyOp =>
    have hd : goodTimers { st with destroyed := true } := h
    exact (good_stopPoll _ (good_stopHealth _
      (good_clearReconnect { st with destroyed := true } hd).1).1).1

theorem good_clientRun (ops : List ClientOp) (st : TimerState)
    (h : goodTimers st) : goodTimers (clientRun st ops) := by
  induction ops generalizing st with
  | nil => exact h
  | cons op rest ih => exact ih (clientStep st op) (good_clientStep st op h)

theorem good_init : goodTimers initTimerState := by
  refine ⟨?_, ?_, ?_⟩ <;> simp [initTimerState]

theorem atMostOne_of_good (st : TimerState) (h : goodTimers st) (d : Duty) :
    (st.pending.filter (fun e => decide (e.1 = d))).length ≤ 1 := by
  obtain ⟨hb, hh, hn⟩ := h
  cases hH : st.handleOf d with
  | none =>
    have hno := good_no_handle st d ⟨hb, hh, hn⟩ hH
    have : st.pending.filter (fun e => decide (e.1 = d)) = [] := by
      rw [List.filter_eq_nil_iff]
      intro e he
      simpa using hno e he
    rw [this]
    simp
  | some id =>
    refine length_le_one_of_map_const (f := fun e => e.2) (c := id)
      (nodup_filter_map _ _ _ hn) ?_
    intro e he
    have hmem := List.mem_of_mem_filter he
    have hed : e.1 = d := by
      have h4 := (List.mem_filter.mp he).2
      simpa using h4
    have h2 := hh e hmem
    rw [hed, hH] at h2
    injection h2 with h5
    exact h5.symm

theorem stop_pending_mem (st : TimerState) :
    (∀ e ∈ (stopHealthCheck st).pending, e ∈ st.pending) ∧
    (∀ e ∈ (stopPolling st).pending, e ∈ st.pending) ∧
    (∀ e ∈ (clearReconnectTimer st).pending, e ∈ st.pending) := by
  refine ⟨?_, ?_, ?_⟩
  · intro e he
    unfold stopHealthCheck at he
    cases hH : st.healthHandle with
    | none => rw [hH] at he; exact he
    | some id => rw [hH] at he; exact List.mem_of_mem_filter he
  · intro e he
    unfold stopPolling at he
    cases hH : st.pollHandle with
    | none => rw [hH] at he; exact he
    | some id => rw [hH] at he; exact List.mem_of_mem_filter he
  · intro e he
    unfold clearReconnectTimer at he
    cases hH : st.reconnectHandle with
    | none => rw [hH] at he; exact he
    | some id => rw [hH] at he; exact List.mem_of_mem_filter he

theorem destroyTimers_pending_nil (st : TimerState) (h : goodTimers st) :
    (destroyTimers st).pending = [] := by
  have hd : goodTimers { st with destroyed := true } := h
  have s1 := good_clearReconnect { st with destroyed := true } hd
  have s2 := good_stopHealth _ s1.1
  have s3 := good_stopPoll _ s2.1
  rw [List.eq_nil_iff_forall_not_mem]
  intro e he
  show False
  have he2 : e ∈ (stopHealthCheck
      (clearReconnectTimer { st with destroyed := true })).pending :=
    (stop_pending_mem _).2.1 e he
  have he3 : e ∈ (clearReconnectTimer { st with destroyed := true }).pending :=
    (stop_pending_mem _).1 e he2
  have hnr := s1.2 e he3
  have hnh := s2.2 e he2
  have hnp := s3.2 e he
  cases hde : e.1 with
  | health => exact hnh hde
  | poll => exact hnp hde
  | reconnect => exact hnr hde

theorem socketModeSwitch_no_poll_health (st : TimerState) (h : goodTimers st) :
    (socketModeSwitch st).pending.filter
      (fun e => decide (e.1 = Duty.health) || decide (e.1 = Duty.poll)) = [] := by
  have s1 := good_stopPoll st h
  have s2 := good_stopHealth _ s1.1
  rw [List.filter_eq_nil_iff]
  intro e he
  have he2 : e ∈ (stopPolling st).pending := (stop_pending_mem _).1 e he
  have hnh := s2.2 e he
  have hnp := s1.2 e he2
  simp only [Bool.or_eq_true, decide_eq_true_eq]
  rintro (hhe | hp)
  · exact hnh hhe
  · exact hnp hp

theorem clientRun_append (st : TimerState) (l1 l2 : List ClientOp) :
    clientRun st (l1 ++ l2) = clientRun (clientRun st l1) l2 := by
  induction l1 generalizing st with
  | nil => rfl
  | cons op rest ih => exact ih (clientStep st op)

theorem mqRun_append (st : MQTimers) (l1 l2 : List MQOp) :
    mqRun st (l1 ++ l2) = mqRun (mqRun st l1) l2 := by
  induction l1 generalizing st with
  | nil => rfl
  | cons op rest ih => exact ih (mqStep st op)

theorem mq_nodup_schedule (sid : String) (st : MQTimers)
    (h : (st.pendingDrain.map (fun e => e.1)).Nodup) :
    ((scheduleProcessing sid st).pendingDrain.map (fun e => e.1)).Nodup := by
  unfold scheduleProcessing
  split
  · exact h
  split
  · exact h
  split
  · exact h
  rename_i hoff hany hproc
  simp only [List.map_cons, List.nodup_cons]
  refine ⟨?_, h⟩
  intro hmem
  obtain ⟨e, he, heq⟩ := List.mem_map.mp hmem
  have : st.pendingDrain.any (fun e => e.1 == sid) = true := by
    refine List.any_eq_true.mpr ⟨e, he, ?_⟩
    simp [heq]
  exact hany this

theorem mq_nodup_step (st : MQTimers) (op : MQOp)
    (h : (st.pendingDrain.map (fun e => e.1)).Nodup) :
    ((mqStep st op).pendingDrain.map (fun e => e.1)).Nodup := by
  cases op with
  | schedule sid => exact mq_nodup_schedule sid st h
  | fire sid resched =>
    show (((fireDrain sid resched st).pendingDrain).map (fun e => e.1)).Nodup
    unfold fireDrain
    have hfil : ((st.pendingDrain.filter
        (fun e => !(e.1 == sid))).map (fun e => e.1)).Nodup :=
      nodup_filter_map _ _ _ h
    split
    · exact mq_nodup_schedule sid _ hfil
    · exact hfil
  | onlineOp sids =>
    show (((setServerOnline sids st).pendingDrain).map (fun e => e.1)).Nodup
    unfold setServerOnline
    split
    · exact h
    · have hgen : ∀ (l : List String) (s : MQTimers),
          ((s.pendingDrain.map (fun e => e.1)).Nodup) →
          (((l.foldl (fun s2 sid => scheduleProcessing sid s2) s).pendingDrain.map
            (fun e => e.1)).Nodup) := by
        intro l
        induction l with
        | nil => intro s hs; exact hs
        | cons x xs ih =>
          intro s hs
          exact ih (scheduleProcessing x s) (mq_nodup_schedule x s hs)
      exact hgen sids { st with online := true } h
  | offlineOp =>
    show (((setServerOffline st).pendingDrain).map (fun e => e.1)).Nodup
    unfold setServerOffline
    split
    · simp
    · exact h
  | enqueueOp sid =>
    show (((enqueueSchedule sid st).pendingDrain).map (fun e => e.1)).Nodup
    unfold enqueueSchedule
    split
    · exact mq_nodup_schedule sid st h
    · exact h
  | clearSessionOp sid => exact nodup_filter_map _ _ _ h
  | clearAllOp =>
    show (((clearAllTimers st).pendingDrain).map (fun e => e.1)).Nodup
    simp [clearAllTimers]
  | destroyOp =>
    show (((clearAllTimers st).pendingDrain).map (fun e => e.1)).Nodup
    simp [clearAllTimers]
  | setProcessing sid b =>
    show (((setProcessingFlag sid b st).pendingDrain).map (fun e => e.1)).Nodup
    unfold setProcessingFlag
    split
    · exact h
    · exact h

theorem mq_nodup_run (ops : List MQOp) (st : MQTimers)
    (h : (st.pendingDrain.map (fun e => e.1)).Nodup) :
    ((mqRun st ops).pendingDrain.map (fun e => e.1)).Nodup := by
  induction ops generalizing st with
  | nil => exact h
  | cons op rest ih => exact ih (mqStep st op) (mq_nodup_step st op h)

theorem mq_filter_le_one (st : MQTimers)
    (h : (st.pendingDrain.map (fun e => e.1)).Nodup) (sid : String) :
    (st.pendingDrain.filter (fun e => decide (e.1 = sid))).length ≤ 1 := by
  refine length_le_one_of_map_const (f := fun e => e.1) (c := sid)
    (nodup_filter_map _ _ _ h) ?_
  intro e he
  have h4 := (List.mem_filter.mp he).2
  simpa using h4

/-- C9: for every session and every logical timer duty, at most one timer for
that duty is pending at any instant.  Over every operation trace of the
client machine (health check, poll loop, reconnect schedule — the scheduling
operations cancel or refuse to overlap an existing timer for the same duty),
at most one timer per duty is pending; destroy leaves no pending timer; the
mode switch to the push transport leaves no poll or health timer.  Over every
operation trace of the outbox machine, at most one drain timer per session
is pending (scheduleProcessing refuses to overlap), and destroy cancels them
all. -/
theorem vex_c9_single_timer_per_duty :
    (∀ (ops : List ClientOp) (d : Duty),
      ((clientRun initTimerState ops).pending.filter
        (fun e => decide (e.1 = d))).length ≤ 1) ∧
    (∀ ops : List ClientOp,
      (clientRun initTimerState (ops ++ [ClientOp.destroyOp])).pending = []) ∧
    (∀ ops : List ClientOp,
      (clientRun initTimerState
        (ops ++ [ClientOp.socketModeSwitchOp])).pending.filter
          (fun e => decide (e.1 = Duty.health) || decide (e.1 = Duty.poll)) =
        []) ∧
    (∀ (ops : List MQOp) (sid : String),
      ((mqRun initMQTimers ops).pendingDrain.filter
        (fun e => decide (e.1 = sid))).length ≤ 1) ∧
    (∀ ops : List MQOp,
      (mqRun initMQTimers (ops ++ [MQOp.destroyOp])).pendingDrain = []) := by
  refine ⟨?_, ?_, ?_, ?_, ?_⟩
  · intro ops d
    exact atMostOne_of_good _ (good_clientRun ops _ good_init) d
  · intro ops
    rw [clientRun_append]
    exact destroyTimers_pending_nil _ (good_clientRun ops _ good_init)
  · intro ops
    rw [clientRun_append]
    exact socketModeSwitch_no_poll_health _ (good_clientRun ops _ good_init)
  · intro ops sid
    exact mq_filter_le_one _ (mq_nodup_run ops _ (by simp [initMQTimers])) sid
  · intro ops
    rw [mqRun_append]
    rfl

end Vex
